import Mathlib

/-!
Verification of the Tabi-Navi travel-planner backend (Python/FastAPI) against
its natural-language specification.  The Python sources under
`backend/app` are shallowly embedded as Lean definitions: Python strings
become `List Char`, Python `dict`/`list`/JSON values become the inductive
`Json`, fallible code returns `Except`/`Option`, and the SQLAlchemy-backed
storage layer becomes pure state passing over an explicit database value.
The standard-library `json.dumps`/`json.loads` pair (used by the response
parser) is modelled by an executable serializer `dumps` and a fuel-based
recursive-descent `loads`, with a verified round trip.
-/

/-- Python strings are modelled as lists of characters. -/
abbrev Str := List Char

/-- The character `{` (written via its code point to keep it out of string literals). -/
def lbrace : Char := Char.ofNat 123

/-- The character `}`. -/
def rbrace : Char := Char.ofNat 125

/-- The backtick character. -/
def btick : Char := Char.ofNat 96

/-- JSON whitespace accepted by `json.loads` between tokens. -/
def isJsonWs (c : Char) : Bool :=
  (c = ' ') || (c = '\t') || (c = '\n') || (c = '\r')

/-- The whitespace set stripped by Python `str.strip()`. -/
def isPyWs (c : Char) : Bool :=
  (c = ' ') || (c = '\t') || (c = '\n') || (c = '\r') ||
  (c = Char.ofNat 11) || (c = Char.ofNat 12)

/-- Drop JSON whitespace from the front of a character list. -/
def skipWs (s : Str) : Str := s.dropWhile isJsonWs

/-- Python `str.strip()`: remove leading and trailing whitespace. -/
def pyStrip (s : Str) : Str :=
  ((s.dropWhile isPyWs).reverse.dropWhile isPyWs).reverse

/-- First occurrence of the pattern `sep` inside `s`:
`findSeq sep s = some (pre, post)` means `s = pre ++ sep ++ post` and the
occurrence is the leftmost one.  Models Python substring search
(`in`, `find`, `split`). -/
def findSeq (sep : Str) : Str → Option (Str × Str)
  | [] => if sep.isEmpty then some ([], []) else none
  | c :: r =>
    if sep.isPrefixOf (c :: r) then some ([], (c :: r).drop sep.length)
    else
      match findSeq sep r with
      | some (p, q) => some (c :: p, q)
      | none => none

/-- Python `sep in s` for a nonempty pattern. -/
def hasSeq (sep s : Str) : Bool := (findSeq sep s).isSome

/-- JSON values, as decoded by `json.loads` on the fragment the backend
exchanges (numbers restricted to integers; floating point is out of scope). -/
inductive Json where
  | null : Json
  | bool : Bool → Json
  | num : Int → Json
  | str : Str → Json
  | arr : List Json → Json
  | obj : List (Str × Json) → Json

mutual

/-- Boolean equality test on JSON values. -/
def jeq : Json → Json → Bool
  | .null, .null => true
  | .bool a, .bool b => a == b
  | .num a, .num b => a == b
  | .str a, .str b => a == b
  | .arr a, .arr b => jeqL a b
  | .obj a, .obj b => jeqO a b
  | _, _ => false

/-- Boolean equality test on JSON arrays. -/
def jeqL : List Json → List Json → Bool
  | [], [] => true
  | x :: xs, y :: ys => jeq x y && jeqL xs ys
  | _, _ => false

/-- Boolean equality test on JSON object member lists. -/
def jeqO : List (Str × Json) → List (Str × Json) → Bool
  | [], [] => true
  | (k1, v1) :: xs, (k2, v2) :: ys => k1 == k2 && jeq v1 v2 && jeqO xs ys
  | _, _ => false

end

mutual

theorem jeq_iff : ∀ (j k : Json), jeq j k = true ↔ j = k
  | .null, .null => by simp [jeq]
  | .bool a, .bool b => by simp [jeq]
  | .num a, .num b => by simp [jeq]
  | .str a, .str b => by simp [jeq]
  | .arr a, .arr b => by simp [jeq, jeqL_iff a b]
  | .obj a, .obj b => by simp [jeq, jeqO_iff a b]
  | .null, .bool _ | .null, .num _ | .null, .str _ | .null, .arr _ | .null, .obj _
  | .bool _, .null | .bool _, .num _ | .bool _, .str _ | .bool _, .arr _ | .bool _, .obj _
  | .num _, .null | .num _, .bool _ | .num _, .str _ | .num _, .arr _ | .num _, .obj _
  | .str _, .null | .str _, .bool _ | .str _, .num _ | .str _, .arr _ | .str _, .obj _
  | .arr _, .null | .arr _, .bool _ | .arr _, .num _ | .arr _, .str _ | .arr _, .obj _
  | .obj _, .null | .obj _, .bool _ | .obj _, .num _ | .obj _, .str _ | .obj _, .arr _ => by
      simp [jeq]

theorem jeqL_iff : ∀ (a b : List Json), jeqL a b = true ↔ a = b
  | [], [] => by simp [jeqL]
  | x :: xs, y :: ys => by
      simp [jeqL, jeq_iff x y, jeqL_iff xs ys]
  | [], _ :: _ => by simp [jeqL]
  | _ :: _, [] => by simp [jeqL]

theorem jeqO_iff : ∀ (a b : List (Str × Json)), jeqO a b = true ↔ a = b
  | [], [] => by simp [jeqO]
  | (k1, v1) :: xs, (k2, v2) :: ys => by
      simp [jeqO, jeq_iff v1 v2, jeqO_iff xs ys, and_assoc]
  | [], _ :: _ => by simp [jeqO]
  | (_, _) :: _, [] => by simp [jeqO]

end

instance : DecidableEq Json := fun j k =>
  decidable_of_iff (jeq j k = true) (jeq_iff j k)

/-- Digit-accumulating loop for decimal rendering, with explicit fuel so that
it is structurally recursive (and hence kernel-reducible). -/
def natDigsAux : Nat → Nat → List Char → List Char
  | 0, _, acc => acc
  | fuel + 1, n, acc =>
    if n < 10 then Nat.digitChar n :: acc
    else natDigsAux fuel (n / 10) (Nat.digitChar (n % 10) :: acc)

/-- Decimal digits of a natural number, most significant first. -/
def natDigs (n : Nat) : List Char := natDigsAux (n + 1) n []

/-- Decimal rendering of an integer. -/
def intRender : Int → List Char
  | Int.ofNat n => natDigs n
  | Int.negSucc m => '-' :: natDigs (m + 1)

/-- Escape one character for inclusion in a JSON string literal. -/
def escChar (c : Char) : List Char :=
  if c = '\"' then ['\\', '\"']
  else if c = '\\' then ['\\', '\\']
  else if c = '\n' then ['\\', 'n']
  else if c = '\t' then ['\\', 't']
  else if c = '\r' then ['\\', 'r']
  else [c]

/-- Escape a whole string body. -/
def escStr (s : Str) : Str := (s.map escChar).flatten

mutual

/-- Compact JSON serialization (the canonical `json.dumps` of a value,
with separators `,` and `:`). -/
def dumps : Json → Str
  | .null => "null".data
  | .bool true => "true".data
  | .bool false => "false".data
  | .num n => intRender n
  | .str s => '\"' :: (escStr s ++ ['\"'])
  | .arr [] => "[]".data
  | .arr (x :: xs) => '[' :: (dumps x ++ dumpsArrTail xs)
  | .obj [] => [lbrace, rbrace]
  | .obj (kv :: kvs) => lbrace :: (dumpsMem kv ++ dumpsObjTail kvs)

/-- Serialize one object member `"key":value`. -/
def dumpsMem : Str × Json → Str
  | (k, v) => '\"' :: (escStr k ++ ('\"' :: ':' :: dumps v))

/-- Serialize the tail of an array after its first element. -/
def dumpsArrTail : List Json → Str
  | [] => [']']
  | x :: xs => ',' :: (dumps x ++ dumpsArrTail xs)

/-- Serialize the tail of an object after its first member. -/
def dumpsObjTail : List (Str × Json) → Str
  | [] => [rbrace]
  | kv :: kvs => ',' :: (dumpsMem kv ++ dumpsObjTail kvs)

end

/-- Unescape one character after a backslash in a JSON string literal. -/
def unesc (c : Char) : Option Char :=
  if c = '\"' then some '\"'
  else if c = '\\' then some '\\'
  else if c = '/' then some '/'
  else if c = 'n' then some '\n'
  else if c = 't' then some '\t'
  else if c = 'r' then some '\r'
  else if c = 'b' then some (Char.ofNat 8)
  else if c = 'f' then some (Char.ofNat 12)
  else none

/-- Parse a JSON string body (after the opening quote) up to the closing quote. -/
def parseStr : Str → Option (Str × Str)
  | [] => none
  | c :: r =>
    if c = '\"' then some ([], r)
    else if c = '\\' then
      match r with
      | [] => none
      | e :: r2 =>
        match unesc e with
        | none => none
        | some ec =>
          match parseStr r2 with
          | none => none
          | some (cs, rest) => some (ec :: cs, rest)
    else
      match parseStr r with
      | none => none
      | some (cs, rest) => some (c :: cs, rest)

/-- Consume a maximal run of decimal digits, folding them onto `acc`. -/
def parseDigits : Str → Nat → Nat × Str
  | [], acc => (acc, [])
  | c :: r, acc =>
    if c.isDigit then parseDigits r (acc * 10 + (c.toNat - 48)) else (acc, c :: r)

/-- Parse a nonempty run of decimal digits. -/
def parseNat1 (s : Str) : Option (Nat × Str) :=
  match s with
  | [] => none
  | c :: _ => if c.isDigit then some (parseDigits s 0) else none

mutual

/-- Fuel-based recursive-descent parser for one JSON value (model of
`json.loads` on the integer fragment); skips leading whitespace. -/
def parseV : Nat → Str → Option (Json × Str)
  | 0, _ => none
  | f + 1, s =>
    match skipWs s with
    | [] => none
    | c :: r =>
      if c = 'n' then
        if "ull".data.isPrefixOf r then some (.null, r.drop 3) else none
      else if c = 't' then
        if "rue".data.isPrefixOf r then some (.bool true, r.drop 3) else none
      else if c = 'f' then
        if "alse".data.isPrefixOf r then some (.bool false, r.drop 4) else none
      else if c = '\"' then
        match parseStr r with
        | some (cs, rest) => some (.str cs, rest)
        | none => none
      else if c = '[' then
        match skipWs r with
        | [] => none
        | d :: r2 =>
          if d = ']' then some (.arr [], r2)
          else
            match parseV f (d :: r2) with
            | none => none
            | some (x, r3) =>
              match parseArrTail f (skipWs r3) with
              | none => none
              | some (xs, r4) => some (.arr (x :: xs), r4)
      else if c = lbrace then
        match skipWs r with
        | [] => none
        | d :: r2 =>
          if d = rbrace then some (.obj [], r2)
          else
            match parseMem f (d :: r2) with
            | none => none
            | some (kv, r3) =>
              match parseObjTail f (skipWs r3) with
              | none => none
              | some (kvs, r4) => some (.obj (kv :: kvs), r4)
      else if c = '-' then
        match parseNat1 r with
        | some (n, rest) => some (.num (-(n : Int)), rest)
        | none => none
      else if c.isDigit then
        match parseNat1 (c :: r) with
        | some (n, rest) => some (.num (n : Int), rest)
        | none => none
      else none

/-- Parse one object member `"key" : value` (no leading whitespace). -/
def parseMem : Nat → Str → Option ((Str × Json) × Str)
  | 0, _ => none
  | f + 1, s =>
    match s with
    | [] => none
    | c :: r =>
      if c = '\"' then
        match parseStr r with
        | none => none
        | some (k, r2) =>
          match skipWs r2 with
          | [] => none
          | d :: r3 =>
            if d = ':' then
              match parseV f r3 with
              | none => none
              | some (v, r4) => some ((k, v), r4)
            else none
      else none

/-- Parse the rest of an array after one element: `, e , e ... ]`. -/
def parseArrTail : Nat → Str → Option (List Json × Str)
  | 0, _ => none
  | f + 1, s =>
    match s with
    | [] => none
    | c :: r =>
      if c = ']' then some ([], r)
      else if c = ',' then
        match parseV f r with
        | none => none
        | some (x, r2) =>
          match parseArrTail f (skipWs r2) with
          | none => none
          | some (xs, r3) => some (x :: xs, r3)
      else none

/-- Parse the rest of an object after one member: `, m , m ... end-brace`. -/
def parseObjTail : Nat → Str → Option (List (Str × Json) × Str)
  | 0, _ => none
  | f + 1, s =>
    match s with
    | [] => none
    | c :: r =>
      if c = rbrace then some ([], r)
      else if c = ',' then
        match parseMem f (skipWs r) with
        | none => none
        | some (kv, r2) =>
          match parseObjTail f (skipWs r2) with
          | none => none
          | some (kvs, r3) => some (kv :: kvs, r3)
      else none

end

/-- Model of `json.loads`: parse one value, allow trailing whitespace only. -/
def loads (s : Str) : Option Json :=
  match parseV (s.length + 1) s with
  | some (j, rest) => if skipWs rest = [] then some j else none
  | none => none

example : loads ("[1,2]".data) = some (.arr [.num 1, .num 2]) := by decide
example : loads ("nul".data) = none := by decide
example : dumps (.arr [.num (-3), .null]) = "[-3,null]".data := by decide
example : loads (dumps (.obj [("a".data, .str "b".data)])) =
    some (.obj [("a".data, .str "b".data)]) := by decide

mutual

/-- Fuel lower bound needed by `parseV` to consume `dumps j`. -/
def sizeJ : Json → Nat
  | .null => 1
  | .bool _ => 1
  | .num _ => 1
  | .str _ => 1
  | .arr [] => 1
  | .arr (x :: xs) => 1 + sizeJ x + sizeATail xs
  | .obj [] => 1
  | .obj (kv :: kvs) => 1 + sizeMem kv + sizeOTail kvs

/-- Fuel bound for one object member. -/
def sizeMem : Str × Json → Nat
  | (_, v) => 1 + sizeJ v

/-- Fuel bound for an array tail. -/
def sizeATail : List Json → Nat
  | [] => 1
  | x :: xs => 1 + sizeJ x + sizeATail xs

/-- Fuel bound for an object tail. -/
def sizeOTail : List (Str × Json) → Nat
  | [] => 1
  | kv :: kvs => 1 + sizeMem kv + sizeOTail kvs

end

/-- A rest-string is unproblematic for the parser when it does not begin
with a digit (digits would be absorbed by number parsing). -/
def goodRest : Str → Prop
  | [] => True
  | c :: _ => c.isDigit = false

theorem sizeJ_pos : ∀ j : Json, 0 < sizeJ j := by
  intro j
  cases j with
  | arr xs => cases xs <;> simp [sizeJ]
  | obj kvs => cases kvs <;> simp [sizeJ]
  | _ => simp [sizeJ]

theorem sizeMem_pos : ∀ kv : Str × Json, 0 < sizeMem kv := by
  intro kv; cases kv; simp [sizeMem]

theorem sizeATail_pos : ∀ xs : List Json, 0 < sizeATail xs := by
  intro xs; cases xs <;> simp [sizeATail]

theorem sizeOTail_pos : ∀ kvs : List (Str × Json), 0 < sizeOTail kvs := by
  intro kvs; cases kvs <;> simp [sizeOTail]

theorem digitChar_isDigit {n : Nat} (h : n < 10) :
    (Nat.digitChar n).isDigit = true := by
  interval_cases n <;> decide

theorem digitChar_sub48 {n : Nat} (h : n < 10) :
    (Nat.digitChar n).toNat - 48 = n := by
  interval_cases n <;> decide

theorem natDigsAux_acc : ∀ (fuel n : Nat) (acc : List Char),
    natDigsAux fuel n acc = natDigsAux fuel n [] ++ acc
  | 0, _, _ => rfl
  | fuel + 1, n, acc => by
    by_cases h : n < 10
    · simp [natDigsAux, h]
    · simp only [natDigsAux, if_neg h]
      rw [natDigsAux_acc fuel (n / 10) (Nat.digitChar (n % 10) :: acc),
        natDigsAux_acc fuel (n / 10) [Nat.digitChar (n % 10)]]
      simp

theorem natDigsAux_extra : ∀ (f1 f2 n : Nat), n < f1 → n < f2 →
    natDigsAux f1 n [] = natDigsAux f2 n []
  | 0, _, _, h1, _ => absurd h1 (by omega)
  | _ + 1, 0, _, _, h2 => absurd h2 (by omega)
  | f1 + 1, f2 + 1, n, h1, h2 => by
    by_cases h : n < 10
    · simp [natDigsAux, h]
    · simp only [natDigsAux, if_neg h]
      rw [natDigsAux_acc f1, natDigsAux_acc f2]
      congr 1
      exact natDigsAux_extra f1 f2 (n / 10) (by omega) (by omega)

theorem natDigs_lt10 {n : Nat} (h : n < 10) : natDigs n = [Nat.digitChar n] := by
  simp [natDigs, natDigsAux, h]

theorem natDigs_unfold {n : Nat} (h : ¬ n < 10) :
    natDigs n = natDigs (n / 10) ++ [Nat.digitChar (n % 10)] := by
  show natDigsAux (n + 1) n [] = _
  have hn : (n + 1 : Nat) = n + 1 := rfl
  simp only [natDigsAux, if_neg h]
  rw [natDigsAux_acc]
  show natDigsAux n (n / 10) [] ++ _ = natDigsAux (n / 10 + 1) (n / 10) [] ++ _
  rw [natDigsAux_extra n (n / 10 + 1) (n / 10) (by omega) (by omega)]

theorem natDigs_ne_nil (n : Nat) : natDigs n ≠ [] := by
  by_cases h : n < 10
  · simp [natDigs_lt10 h]
  · simp [natDigs_unfold h]

theorem natDigs_digits (n : Nat) : ∀ c ∈ natDigs n, c.isDigit = true := by
  induction n using Nat.strong_induction_on with
  | _ n ih =>
    by_cases h : n < 10
    · simp only [natDigs_lt10 h, List.mem_singleton]
      rintro c rfl
      exact digitChar_isDigit h
    · rw [natDigs_unfold h]
      intro c hc
      rcases List.mem_append.mp hc with h1 | h1
      · exact ih (n / 10) (by omega) c h1
      · rw [List.mem_singleton] at h1
        subst h1
        exact digitChar_isDigit (by omega)

theorem parseDigits_stop {rest : Str} (h : goodRest rest) (v : Nat) :
    parseDigits rest v = (v, rest) := by
  cases rest with
  | nil => rfl
  | cons c l =>
    simp only [goodRest] at h
    simp [parseDigits, h]

theorem parseDigits_natDigs : ∀ (n : Nat) (rest : Str) (acc : Nat),
    parseDigits (natDigs n ++ rest) acc =
      parseDigits rest (acc * 10 ^ (natDigs n).length + n) := by
  intro n
  induction n using Nat.strong_induction_on with
  | _ n ih =>
    intro rest acc
    by_cases h : n < 10
    · rw [natDigs_lt10 h]
      simp [parseDigits, digitChar_isDigit h, digitChar_sub48 h]
    · conv_lhs => rw [natDigs_unfold h]
      rw [List.append_assoc, ih (n / 10) (by omega)]
      have h10 : n % 10 < 10 := by omega
      simp only [List.cons_append, List.nil_append, parseDigits,
        digitChar_isDigit h10, if_pos, digitChar_sub48 h10]
      congr 1
      rw [natDigs_unfold h]
      simp only [List.length_append, List.length_singleton]
      rw [pow_succ, ← mul_assoc]
      have hdm := Nat.div_add_mod n 10
      generalize acc * 10 ^ (natDigs (n / 10)).length = k
      omega

theorem parseNat1_natDigs {rest : Str} (h : goodRest rest) (n : Nat) :
    parseNat1 (natDigs n ++ rest) = some (n, rest) := by
  obtain ⟨c, l, hcl⟩ : ∃ c l, natDigs n = c :: l := by
    cases hd : natDigs n with
    | nil => exact absurd hd (natDigs_ne_nil n)
    | cons a b => exact ⟨a, b, rfl⟩
  have hdig : c.isDigit = true := natDigs_digits n c (by rw [hcl]; exact List.mem_cons_self c l)
  rw [hcl]
  simp only [List.cons_append, parseNat1, hdig, if_pos]
  rw [show c :: (l ++ rest) = (c :: l) ++ rest from rfl, ← hcl,
    parseDigits_natDigs, parseDigits_stop h]
  simp

theorem parseStr_esc : ∀ (s rest : Str),
    parseStr (escStr s ++ ('\"' :: rest)) = some (s, rest)
  | [], rest => by
    simp only [escStr, List.map_nil, List.flatten_nil, List.nil_append]
    rw [parseStr.eq_def]
    simp
  | c :: s, rest => by
    have hesc : escStr (c :: s) = escChar c ++ escStr s := by
      simp [escStr]
    rw [hesc, List.append_assoc]
    by_cases h1 : c = '\"'
    · subst h1
      simp only [escChar, if_pos rfl, List.cons_append, List.nil_append]
      rw [parseStr.eq_def]
      simp [unesc, parseStr_esc s rest]
    · by_cases h2 : c = '\\'
      · subst h2
        simp only [escChar, if_neg (by decide : ¬ ('\\' : Char) = '\"'), if_pos rfl,
          List.cons_append, List.nil_append]
        rw [parseStr.eq_def]
        simp [unesc, parseStr_esc s rest]
      · by_cases h3 : c = '\n'
        · subst h3
          simp only [escChar, if_neg (by decide : ¬ ('\n' : Char) = '\"'),
            if_neg (by decide : ¬ ('\n' : Char) = '\\'), if_pos rfl,
            List.cons_append, List.nil_append]
          rw [parseStr.eq_def]
          simp [unesc, parseStr_esc s rest]
        · by_cases h4 : c = '\t'
          · subst h4
            simp only [escChar, if_neg (by decide : ¬ ('\t' : Char) = '\"'),
              if_neg (by decide : ¬ ('\t' : Char) = '\\'),
              if_neg (by decide : ¬ ('\t' : Char) = '\n'), if_pos rfl,
              List.cons_append, List.nil_append]
            rw [parseStr.eq_def]
            simp [unesc, parseStr_esc s rest]
          · by_cases h5 : c = '\r'
            · subst h5
              simp only [escChar, if_neg (by decide : ¬ ('\r' : Char) = '\"'),
                if_neg (by decide : ¬ ('\r' : Char) = '\\'),
                if_neg (by decide : ¬ ('\r' : Char) = '\n'),
                if_neg (by decide : ¬ ('\r' : Char) = '\t'), if_pos rfl,
                List.cons_append, List.nil_append]
              rw [parseStr.eq_def]
              simp [unesc, parseStr_esc s rest]
            · simp only [escChar, if_neg h1, if_neg h2, if_neg h3, if_neg h4, if_neg h5,
                List.cons_append, List.nil_append]
              rw [parseStr.eq_def]
              simp [h1, h2, parseStr_esc s rest]

theorem isDigit_facts {c : Char} (h : c.isDigit = true) :
    isJsonWs c = false ∧ c ≠ 'n' ∧ c ≠ 't' ∧ c ≠ 'f' ∧ c ≠ '\"' ∧ c ≠ '[' ∧
      c ≠ lbrace ∧ c ≠ '-' ∧ c ≠ ']' ∧ c ≠ rbrace := by
  have hne : ∀ d : Char, d.isDigit = false → c ≠ d := by
    intro d hd e
    subst e
    rw [h] at hd
    cases hd
  refine ⟨?_, hne _ (by decide), hne _ (by decide), hne _ (by decide), hne _ (by decide),
    hne _ (by decide), hne _ (by decide), hne _ (by decide), hne _ (by decide),
    hne _ (by decide)⟩
  simp [isJsonWs, hne ' ' (by decide), hne '\t' (by decide), hne '\n' (by decide),
    hne '\r' (by decide)]

theorem skipWs_cons_false {c : Char} (h : isJsonWs c = false) (l : Str) :
    skipWs (c :: l) = c :: l := by
  simp [skipWs, List.dropWhile_cons, h]

theorem dumps_head_spec : ∀ j : Json, ∃ c l, dumps j = c :: l ∧
    isJsonWs c = false ∧ c ≠ ']' ∧ c ≠ rbrace := by
  intro j
  cases j with
  | null => exact ⟨'n', "ull".data, rfl, by decide, by decide, by decide⟩
  | bool b =>
    cases b with
    | true => exact ⟨'t', "rue".data, rfl, by decide, by decide, by decide⟩
    | false => exact ⟨'f', "alse".data, rfl, by decide, by decide, by decide⟩
  | num n =>
    cases n with
    | ofNat m =>
      obtain ⟨c, l, hcl⟩ : ∃ c l, natDigs m = c :: l := by
        cases hd : natDigs m with
        | nil => exact absurd hd (natDigs_ne_nil m)
        | cons a b => exact ⟨a, b, rfl⟩
      have hdig : c.isDigit = true :=
        natDigs_digits m c (by rw [hcl]; exact List.mem_cons_self c l)
      obtain ⟨hws, _, _, _, _, _, _, _, hne1, hne2⟩ := isDigit_facts hdig
      exact ⟨c, l, by simp [dumps, intRender, hcl], hws, hne1, hne2⟩
    | negSucc m =>
      exact ⟨'-', natDigs (m + 1), rfl, by decide, by decide, by decide⟩
  | str s => exact ⟨'\"', escStr s ++ ['\"'], rfl, by decide, by decide, by decide⟩
  | arr xs =>
    cases xs with
    | nil => exact ⟨'[', [']'], rfl, by decide, by decide, by decide⟩
    | cons x xs => exact ⟨'[', dumps x ++ dumpsArrTail xs, rfl, by decide, by decide, by decide⟩
  | obj kvs =>
    cases kvs with
    | nil => exact ⟨lbrace, [rbrace], rfl, by decide, by decide, by decide⟩
    | cons kv kvs =>
      exact ⟨lbrace, dumpsMem kv ++ dumpsObjTail kvs, rfl, by decide, by decide, by decide⟩

theorem skipWs_dumps (j : Json) (l : Str) : skipWs (dumps j ++ l) = dumps j ++ l := by
  obtain ⟨c, r, hc, hws, _, _⟩ := dumps_head_spec j
  rw [hc, List.cons_append, skipWs_cons_false hws]

theorem skipWs_dumpsArrTail (xs : List Json) (l : Str) :
    skipWs (dumpsArrTail xs ++ l) = dumpsArrTail xs ++ l := by
  cases xs with
  | nil => exact skipWs_cons_false (by decide) l
  | cons x xs =>
    simp only [dumpsArrTail, List.cons_append]
    exact skipWs_cons_false (by decide) _

theorem skipWs_dumpsObjTail (kvs : List (Str × Json)) (l : Str) :
    skipWs (dumpsObjTail kvs ++ l) = dumpsObjTail kvs ++ l := by
  cases kvs with
  | nil => exact skipWs_cons_false (by decide) l
  | cons kv kvs =>
    simp only [dumpsObjTail, List.cons_append]
    exact skipWs_cons_false (by decide) _

theorem skipWs_dumpsMem (kv : Str × Json) (l : Str) :
    skipWs (dumpsMem kv ++ l) = dumpsMem kv ++ l := by
  obtain ⟨k, v⟩ := kv
  simp only [dumpsMem, List.cons_append]
  exact skipWs_cons_false (by decide) _

theorem goodRest_dumpsArrTail (xs : List Json) (l : Str) :
    goodRest (dumpsArrTail xs ++ l) := by
  cases xs with
  | nil => simp [dumpsArrTail, goodRest]
  | cons x xs => simp [dumpsArrTail, goodRest]

theorem goodRest_dumpsObjTail (kvs : List (Str × Json)) (l : Str) :
    goodRest (dumpsObjTail kvs ++ l) := by
  cases kvs with
  | nil => simp [dumpsObjTail, goodRest, rbrace]
  | cons kv kvs => simp [dumpsObjTail, goodRest]

mutual

theorem parseV_dumps : ∀ (f : Nat) (j : Json) (rest : Str),
    sizeJ j ≤ f → goodRest rest →
    parseV f (dumps j ++ rest) = some (j, rest)
  | 0, j, _, hf, _ => absurd hf (by have := sizeJ_pos j; omega)
  | f + 1, j, rest, hf, hr => by
    cases j with
    | null =>
      show parseV (f + 1) ('n' :: 'u' :: 'l' :: 'l' :: rest) = some (.null, rest)
      simp [parseV, skipWs, isJsonWs, List.isPrefixOf]
    | bool b =>
      cases b with
      | true =>
        show parseV (f + 1) ('t' :: 'r' :: 'u' :: 'e' :: rest) = some (.bool true, rest)
        simp [parseV, skipWs, isJsonWs, List.isPrefixOf]
      | false =>
        show parseV (f + 1) ('f' :: 'a' :: 'l' :: 's' :: 'e' :: rest) = some (.bool false, rest)
        simp [parseV, skipWs, isJsonWs, List.isPrefixOf]
    | num n =>
      cases n with
      | ofNat m =>
        show parseV (f + 1) (natDigs m ++ rest) = some (.num (Int.ofNat m), rest)
        obtain ⟨c, l, hcl⟩ : ∃ c l, natDigs m = c :: l := by
          cases hd : natDigs m with
          | nil => exact absurd hd (natDigs_ne_nil m)
          | cons a b => exact ⟨a, b, rfl⟩
        have hdig : c.isDigit = true :=
          natDigs_digits m c (by rw [hcl]; exact List.mem_cons_self c l)
        obtain ⟨hws, hn1, hn2, hn3, hn4, hn5, hn6, hn7, _, _⟩ := isDigit_facts hdig
        rw [hcl, List.cons_append]
        simp only [parseV]
        rw [skipWs_cons_false hws]
        simp only [if_neg hn1, if_neg hn2, if_neg hn3, if_neg hn4, if_neg hn5,
          if_neg hn6, if_neg hn7, if_pos hdig]
        rw [← List.cons_append, ← hcl, parseNat1_natDigs hr]
        rfl
      | negSucc m =>
        show parseV (f + 1) (('-' :: natDigs (m + 1)) ++ rest) = some (.num (Int.negSucc m), rest)
        rw [List.cons_append]
        simp only [parseV]
        rw [skipWs_cons_false (by decide)]
        simp only [if_neg (by decide : ¬ ('-' : Char) = 'n'),
          if_neg (by decide : ¬ ('-' : Char) = 't'),
          if_neg (by decide : ¬ ('-' : Char) = 'f'),
          if_neg (by decide : ¬ ('-' : Char) = '\"'),
          if_neg (by decide : ¬ ('-' : Char) = '['),
          if_neg (by decide : ¬ ('-' : Char) = lbrace), if_pos rfl]
        rw [parseNat1_natDigs hr]
        simp [Int.negSucc_eq]
    | str s =>
      show parseV (f + 1) (('\"' :: (escStr s ++ ['\"'])) ++ rest) = some (.str s, rest)
      rw [List.cons_append, List.append_assoc, List.cons_append, List.nil_append]
      simp only [parseV]
      rw [skipWs_cons_false (by decide)]
      simp only [if_neg (by decide : ¬ ('\"' : Char) = 'n'),
        if_neg (by decide : ¬ ('\"' : Char) = 't'),
        if_neg (by decide : ¬ ('\"' : Char) = 'f'), if_pos rfl]
      rw [parseStr_esc s rest]
      simp
    | arr xs =>
      cases xs with
      | nil =>
        show parseV (f + 1) ('[' :: ']' :: rest) = some (.arr [], rest)
        simp [parseV, skipWs, isJsonWs]
      | cons x xs =>
        show parseV (f + 1) (('[' :: (dumps x ++ dumpsArrTail xs)) ++ rest) =
          some (.arr (x :: xs), rest)
        have hfx : sizeJ x ≤ f := by
          simp only [sizeJ] at hf
          have := sizeATail_pos xs
          omega
        have hft : sizeATail xs ≤ f := by
          simp only [sizeJ] at hf
          have := sizeJ_pos x
          omega
        rw [List.cons_append, List.append_assoc]
        simp only [parseV]
        rw [skipWs_cons_false (by decide)]
        simp only [if_neg (by decide : ¬ ('[' : Char) = 'n'),
          if_neg (by decide : ¬ ('[' : Char) = 't'),
          if_neg (by decide : ¬ ('[' : Char) = 'f'),
          if_neg (by decide : ¬ ('[' : Char) = '\"'), if_pos rfl]
        rw [skipWs_dumps x (dumpsArrTail xs ++ rest)]
        obtain ⟨c, r0, hc, hws, hne1, _⟩ := dumps_head_spec x
        rw [hc, List.cons_append]
        simp only [if_neg hne1]
        rw [← List.cons_append, ← hc,
          parseV_dumps f x (dumpsArrTail xs ++ rest) hfx (goodRest_dumpsArrTail xs rest)]
        simp [skipWs_dumpsArrTail, parseArrTail_dumps f xs rest hft hr]
    | obj kvs =>
      cases kvs with
      | nil =>
        show parseV (f + 1) (lbrace :: rbrace :: rest) = some (.obj [], rest)
        simp only [parseV]
        rw [skipWs_cons_false (by decide)]
        simp only [if_neg (by decide : ¬ lbrace = 'n'),
          if_neg (by decide : ¬ lbrace = 't'),
          if_neg (by decide : ¬ lbrace = 'f'),
          if_neg (by decide : ¬ lbrace = '\"'),
          if_neg (by decide : ¬ lbrace = '['), if_pos rfl]
        rw [skipWs_cons_false (by decide)]
        simp
      | cons kv kvs =>
        show parseV (f + 1) ((lbrace :: (dumpsMem kv ++ dumpsObjTail kvs)) ++ rest) =
          some (.obj (kv :: kvs), rest)
        have hfm : sizeMem kv ≤ f := by
          simp only [sizeJ] at hf
          have := sizeOTail_pos kvs
          omega
        have hft : sizeOTail kvs ≤ f := by
          simp only [sizeJ] at hf
          have := sizeMem_pos kv
          omega
        rw [List.cons_append, List.append_assoc]
        simp only [parseV]
        rw [skipWs_cons_false (by decide)]
        simp only [if_neg (by decide : ¬ lbrace = 'n'),
          if_neg (by decide : ¬ lbrace = 't'),
          if_neg (by decide : ¬ lbrace = 'f'),
          if_neg (by decide : ¬ lbrace = '\"'),
          if_neg (by decide : ¬ lbrace = '['), if_pos rfl]
        rw [skipWs_dumpsMem kv (dumpsObjTail kvs ++ rest)]
        obtain ⟨k, v⟩ := kv
        simp only [dumpsMem, List.cons_append]
        simp only [if_neg (by decide : ¬ ('\"' : Char) = rbrace)]
        rw [show '\"' :: (escStr k ++ ('\"' :: ':' :: dumps v) ++ (dumpsObjTail kvs ++ rest)) =
            dumpsMem (k, v) ++ (dumpsObjTail kvs ++ rest) by simp [dumpsMem]]
        rw [parseMem_dumps f (k, v) (dumpsObjTail kvs ++ rest) hfm
          (goodRest_dumpsObjTail kvs rest)]
        simp [skipWs_dumpsObjTail, parseObjTail_dumps f kvs rest hft hr]

theorem parseMem_dumps : ∀ (f : Nat) (kv : Str × Json) (rest : Str),
    sizeMem kv ≤ f → goodRest rest →
    parseMem f (dumpsMem kv ++ rest) = some (kv, rest)
  | 0, kv, _, hf, _ => absurd hf (by have := sizeMem_pos kv; omega)
  | f + 1, (k, v), rest, hf, hr => by
    have hfv : sizeJ v ≤ f := by
      simp only [sizeMem] at hf
      omega
    show parseMem (f + 1) (('\"' :: (escStr k ++ ('\"' :: ':' :: dumps v))) ++ rest) =
      some ((k, v), rest)
    rw [List.cons_append, List.append_assoc]
    simp only [parseMem, if_pos rfl, List.cons_append]
    rw [parseStr_esc k (':' :: (dumps v ++ rest))]
    simp only []
    rw [skipWs_cons_false (by decide)]
    simp only [if_pos rfl]
    rw [parseV_dumps f v rest hfv hr]
    simp

theorem parseArrTail_dumps : ∀ (f : Nat) (xs : List Json) (rest : Str),
    sizeATail xs ≤ f → goodRest rest →
    parseArrTail f (dumpsArrTail xs ++ rest) = some (xs, rest)
  | 0, xs, _, hf, _ => absurd hf (by have := sizeATail_pos xs; omega)
  | f + 1, [], rest, _, _ => by
    show parseArrTail (f + 1) (']' :: rest) = some ([], rest)
    simp [parseArrTail]
  | f + 1, x :: xs, rest, hf, hr => by
    have hfx : sizeJ x ≤ f := by
      simp only [sizeATail] at hf
      have := sizeATail_pos xs
      omega
    have hft : sizeATail xs ≤ f := by
      simp only [sizeATail] at hf
      have := sizeJ_pos x
      omega
    show parseArrTail (f + 1) ((',' :: (dumps x ++ dumpsArrTail xs)) ++ rest) =
      some (x :: xs, rest)
    rw [List.cons_append, List.append_assoc]
    simp only [parseArrTail, if_neg (by decide : ¬ (',' : Char) = ']'), if_pos rfl]
    rw [parseV_dumps f x (dumpsArrTail xs ++ rest) hfx (goodRest_dumpsArrTail xs rest)]
    simp [skipWs_dumpsArrTail, parseArrTail_dumps f xs rest hft hr]

theorem parseObjTail_dumps : ∀ (f : Nat) (kvs : List (Str × Json)) (rest : Str),
    sizeOTail kvs ≤ f → goodRest rest →
    parseObjTail f (dumpsObjTail kvs ++ rest) = some (kvs, rest)
  | 0, kvs, _, hf, _ => absurd hf (by have := sizeOTail_pos kvs; omega)
  | f + 1, [], rest, _, _ => by
    show parseObjTail (f + 1) (rbrace :: rest) = some ([], rest)
    simp [parseObjTail]
  | f + 1, kv :: kvs, rest, hf, hr => by
    have hfm : sizeMem kv ≤ f := by
      simp only [sizeOTail] at hf
      have := sizeOTail_pos kvs
      omega
    have hft : sizeOTail kvs ≤ f := by
      simp only [sizeOTail] at hf
      have := sizeMem_pos kv
      omega
    show parseObjTail (f + 1) ((',' :: (dumpsMem kv ++ dumpsObjTail kvs)) ++ rest) =
      some (kv :: kvs, rest)
    rw [List.cons_append, List.append_assoc]
    simp only [parseObjTail, if_neg (by decide : ¬ (',' : Char) = rbrace), if_pos rfl]
    rw [skipWs_dumpsMem kv (dumpsObjTail kvs ++ rest)]
    rw [parseMem_dumps f kv (dumpsObjTail kvs ++ rest) hfm (goodRest_dumpsObjTail kvs rest)]
    simp [skipWs_dumpsObjTail, parseObjTail_dumps f kvs rest hft hr]

end

mutual

theorem sizeJ_le_dumps : ∀ j : Json, sizeJ j ≤ (dumps j).length
  | .null => by simp [sizeJ, dumps]
  | .bool b => by cases b <;> simp [sizeJ, dumps]
  | .num n => by
    cases n with
    | ofNat m =>
      have : (natDigs m).length ≠ 0 := by
        simp [List.length_eq_zero, natDigs_ne_nil m]
      simp only [sizeJ, dumps, intRender]
      omega
    | negSucc m => simp [sizeJ, dumps, intRender]
  | .str s => by simp [sizeJ, dumps]
  | .arr [] => by simp [sizeJ, dumps]
  | .arr (x :: xs) => by
    have h1 := sizeJ_le_dumps x
    have h2 := sizeATail_le_dumps xs
    simp only [sizeJ, dumps, List.length_cons, List.length_append]
    omega
  | .obj [] => by simp [sizeJ, dumps]
  | .obj (kv :: kvs) => by
    have h1 := sizeMem_le_dumps kv
    have h2 := sizeOTail_le_dumps kvs
    simp only [sizeJ, dumps, List.length_cons, List.length_append]
    omega

theorem sizeMem_le_dumps : ∀ kv : Str × Json, sizeMem kv ≤ (dumpsMem kv).length
  | (k, v) => by
    have := sizeJ_le_dumps v
    simp only [sizeMem, dumpsMem, List.length_cons, List.length_append]
    omega

theorem sizeATail_le_dumps : ∀ xs : List Json, sizeATail xs ≤ (dumpsArrTail xs).length
  | [] => by simp [sizeATail, dumpsArrTail]
  | x :: xs => by
    have h1 := sizeJ_le_dumps x
    have h2 := sizeATail_le_dumps xs
    simp only [sizeATail, dumpsArrTail, List.length_cons, List.length_append]
    omega

theorem sizeOTail_le_dumps : ∀ kvs : List (Str × Json), sizeOTail kvs ≤ (dumpsObjTail kvs).length
  | [] => by simp [sizeOTail, dumpsObjTail]
  | kv :: kvs => by
    have h1 := sizeMem_le_dumps kv
    have h2 := sizeOTail_le_dumps kvs
    simp only [sizeOTail, dumpsObjTail, List.length_cons, List.length_append]
    omega

end

/-- The verified round trip for the modelled `json` module: decoding the
compact serialization of any JSON value recovers the value exactly. -/
theorem loads_dumps (j : Json) : loads (dumps j) = some j := by
  have h : parseV ((dumps j).length + 1) (dumps j) = some (j, []) := by
    have hs := parseV_dumps ((dumps j).length + 1) j []
      (by have := sizeJ_le_dumps j; omega) trivial
    simpa using hs
  unfold loads
  rw [h]
  simp [skipWs]

/-- The fence marker (three backticks) studied by the response parser. -/
def fence : Str := [btick, btick, btick]

/-- The labelled fence marker (three backticks followed by `json`). -/
def fenceJson : Str := [btick, btick, btick, 'j', 's', 'o', 'n']

theorem findSeq_pref {sep : Str} : ∀ {s : Str}, sep.isPrefixOf s = true →
    findSeq sep s = some ([], s.drop sep.length) := by
  intro s h
  cases s with
  | nil =>
    have : sep = [] := List.prefix_nil.mp (List.isPrefixOf_iff_prefix.mp h)
    subst this
    simp [findSeq]
  | cons c r => simp [findSeq, h]

theorem findSeq_cons_neg {sep : Str} {c : Char} {r : Str}
    (h : sep.isPrefixOf (c :: r) = false) :
    findSeq sep (c :: r) = (findSeq sep r).map (fun pq => (c :: pq.1, pq.2)) := by
  rcases h2 : findSeq sep r with _ | ⟨p, q⟩ <;> simp [findSeq, h, h2]

theorem findSeq_shift {sep : Str} : ∀ (a t : Str),
    (∀ a2, a2 <:+ a → a2 ≠ [] → ¬ sep <+: (a2 ++ t)) →
    findSeq sep (a ++ t) = (findSeq sep t).map (fun pq => (a ++ pq.1, pq.2)) := by
  intro a
  induction a with
  | nil =>
    intro t _
    rcases h2 : findSeq sep t with _ | ⟨p, q⟩ <;> simp [h2]
  | cons c a ih =>
    intro t h
    rw [List.cons_append, findSeq_cons_neg (by
      rw [← List.cons_append]
      exact Bool.eq_false_iff.mpr (fun hb =>
        h (c :: a) List.suffix_rfl (by simp) (List.isPrefixOf_iff_prefix.mp hb)))]
    rw [ih t (fun a2 hs hne => h a2 (hs.trans (List.suffix_cons c a)) hne)]
    rcases h2 : findSeq sep t with _ | ⟨p, q⟩ <;> simp [h2]

theorem findSeq_none {sep : Str} (hsep : sep ≠ []) (s : Str)
    (h : ∀ a2, a2 <:+ s → a2 ≠ [] → ¬ sep <+: a2) : findSeq sep s = none := by
  have hshift := @findSeq_shift sep s []
    (fun a2 hs hne => by simpa using h a2 hs hne)
  have hnil : findSeq sep [] = none := by
    simp [findSeq, List.isEmpty_iff, hsep]
  simpa [hnil] using hshift

theorem findSeq_complete {sep : Str} : ∀ (p q : Str), findSeq sep (p ++ sep ++ q) ≠ none := by
  intro p
  induction p with
  | nil =>
    intro q
    rw [List.nil_append,
      findSeq_pref (List.isPrefixOf_iff_prefix.mpr (List.prefix_append sep q))]
    simp
  | cons c p ih =>
    intro q
    rw [show (c :: p) ++ sep ++ q = c :: (p ++ sep ++ q) by simp]
    by_cases hp : sep <+: c :: (p ++ sep ++ q)
    · rw [findSeq_pref (List.isPrefixOf_iff_prefix.mpr hp)]
      simp
    · rw [findSeq_cons_neg (Bool.eq_false_iff.mpr
        (fun hb => hp (List.isPrefixOf_iff_prefix.mp hb)))]
      rcases h2 : findSeq sep (p ++ sep ++ q) with _ | ⟨a, b⟩
      · exact absurd h2 (ih q)
      · simp

theorem no_decomp_of_not_hasSeq {sep s : Str} (h : hasSeq sep s = false) :
    ∀ p q, s ≠ p ++ sep ++ q := by
  intro p q e
  subst e
  rcases h2 : findSeq sep (p ++ sep ++ q) with _ | pq
  · exact findSeq_complete p q h2
  · rw [hasSeq, h2] at h
    simp at h

theorem suffix_append_cases {a2 x y : Str} (h : a2 <:+ x ++ y) :
    a2 <:+ y ∨ ∃ x2, x2 <:+ x ∧ a2 = x2 ++ y := by
  obtain ⟨p, hp⟩ := h
  have ha2 : a2 = (x ++ y).drop p.length := by
    rw [← hp, List.drop_left]
  by_cases hl : x.length ≤ p.length
  · left
    rw [ha2, List.drop_append_eq_append_drop, List.drop_eq_nil_of_le hl, List.nil_append]
    exact List.drop_suffix _ y
  · right
    push_neg at hl
    refine ⟨x.drop p.length, List.drop_suffix _ x, ?_⟩
    rw [ha2, List.drop_append_of_le_length (by omega)]

theorem prefix_ge {pat u w : Str} (hp : pat <+: u ++ w) (hl : pat.length ≤ u.length) :
    pat <+: u := by
  rw [List.prefix_iff_eq_take] at hp ⊢
  rwa [List.take_append_of_le_length hl] at hp

theorem prefix_overflow {pat u w : Str} (hp : pat <+: u ++ w) (hl : u.length < pat.length) :
    ∃ hw : w ≠ [], w.head hw ∈ pat := by
  obtain ⟨t, ht⟩ := hp
  have hlen : pat.length + t.length = u.length + w.length := by
    have hc := congrArg List.length ht
    simpa using hc
  have hw : w ≠ [] := by
    intro e
    subst e
    simp at hlen
    omega
  refine ⟨hw, ?_⟩
  obtain ⟨c, w', rfl⟩ : ∃ c w', w = c :: w' := by
    cases w with
    | nil => exact absurd rfl hw
    | cons a b => exact ⟨a, b, rfl⟩
  have h1 : (u ++ c :: w')[u.length]? = some c := by
    rw [List.getElem?_append_right (le_refl u.length)]
    simp
  have h2 : (pat ++ t)[u.length]? = some pat[u.length] := by
    rw [List.getElem?_append_left hl, List.getElem?_eq_getElem hl]
  rw [ht, h1] at h2
  have hc2 : c = pat[u.length] := by
    simpa using h2
  rw [show (c :: w').head hw = c from rfl, hc2]
  exact List.getElem_mem hl

/-- No occurrence of a pattern free of newlines can start inside a suffix of a
pattern-free string when a newline follows the suffix. -/
theorem pat_block_nl {pat s s2 : Str} (hnl : '\n' ∉ pat)
    (hs : ∀ p q, s ≠ p ++ pat ++ q) (h2 : s2 <:+ s) (w : Str) :
    ¬ pat <+: s2 ++ ('\n' :: w) := by
  intro hp
  by_cases hl : pat.length ≤ s2.length
  · obtain ⟨t, ht⟩ := prefix_ge hp hl
    obtain ⟨p, hp2⟩ := h2
    exact hs p t (by rw [← hp2, ← ht]; simp [List.append_assoc])
  · obtain ⟨hw, hmem⟩ := prefix_overflow hp (by omega)
    rw [show ('\n' :: w).head hw = '\n' from rfl] at hmem
    exact hnl hmem

/-- No occurrence of a pattern of backticks can start inside a suffix of a
pattern-free string when the following text contains no backtick. -/
theorem fence_block_post {s s2 post : Str}
    (hs : ∀ p q, s ≠ p ++ fence ++ q) (h2 : s2 <:+ s) (hpost : btick ∉ post) :
    ¬ fence <+: s2 ++ post := by
  intro hp
  by_cases hl : fence.length ≤ s2.length
  · obtain ⟨t, ht⟩ := prefix_ge hp hl
    obtain ⟨p, hp2⟩ := h2
    exact hs p t (by rw [← hp2, ← ht]; simp [List.append_assoc])
  · obtain ⟨hw, hmem⟩ := prefix_overflow hp (by omega)
    have hb : post.head hw = btick := by
      have hfence : ∀ c ∈ fence, c = btick := by decide
      exact hfence _ hmem
    exact hpost (hb ▸ List.head_mem hw)

/-- A pattern cannot start inside a nonempty suffix of a string avoiding the
pattern head character. -/
theorem head_block {pat : Str} {h0 : Char} (hpat : pat.head? = some h0) {pre : Str}
    (hpre : h0 ∉ pre) (t : Str) :
    ∀ a2, a2 <:+ pre → a2 ≠ [] → ¬ pat <+: a2 ++ t := by
  intro a2 hsuf hne hp
  obtain ⟨c, a2', rfl⟩ : ∃ c a2', a2 = c :: a2' := by
    cases a2 with
    | nil => exact absurd rfl hne
    | cons a b => exact ⟨a, b, rfl⟩
  obtain ⟨p0, pat', rfl⟩ : ∃ p0 pat', pat = p0 :: pat' := by
    cases pat with
    | nil => exact absurd hpat (by simp)
    | cons a b => exact ⟨a, b, rfl⟩
  have h0c : p0 = h0 := by simpa using hpat
  obtain ⟨u, hu⟩ := hp
  rw [List.cons_append, List.cons_append] at hu
  have : p0 = c := (List.cons.injEq _ _ _ _).mp hu |>.1
  exact hpre (by
    rw [← h0c, this]
    exact hsuf.subset (List.mem_cons_self c a2'))

/-- Left part of Python `strip`. -/
def lstripWs (t : Str) : Str := t.dropWhile isPyWs

/-- Right part of Python `strip`. -/
def rstripWs (t : Str) : Str := (t.reverse.dropWhile isPyWs).reverse

theorem pyStrip_eq (t : Str) : pyStrip t = rstripWs (lstripWs t) := rfl

theorem lstrip_app {pre rest : Str} {c : Char} (hc : isPyWs c = false) :
    (pre ++ (c :: rest)).dropWhile isPyWs = pre.dropWhile isPyWs ++ (c :: rest) := by
  rw [List.dropWhile_append]
  by_cases he : (pre.dropWhile isPyWs).isEmpty = true
  · simp [he, List.isEmpty_iff.mp he, List.dropWhile_cons, hc]
  · simp [he]

theorem rstrip_concat {u0 post : Str} {c : Char} (hc : isPyWs c = false) :
    rstripWs ((u0 ++ [c]) ++ post) = (u0 ++ [c]) ++ rstripWs post := by
  unfold rstripWs
  rw [List.reverse_append, List.reverse_append, List.reverse_singleton]
  rw [show ([c] ++ u0.reverse : Str) = c :: u0.reverse from rfl, lstrip_app hc]
  simp [List.reverse_append]

/-- Python splitting: `s.split(sep)[1]`, meaningful when `sep` occurs in `s`
(`split` then has at least two chunks); out of range indexing is modelled by
returning `s` but is unreachable behind the `in` guard. -/
def split1 (sep s : Str) : Str :=
  match findSeq sep s with
  | some (_, post) =>
    match findSeq sep post with
    | some (p, _) => p
    | none => post
  | none => s

/-- Python `s.split(sep)[0]`. -/
def split0 (sep s : Str) : Str :=
  match findSeq sep s with
  | some (p, _) => p
  | none => s

/-- Python `s.find(c)` (None models absence, guarded by `in` in the source). -/
def pyFindChar (c : Char) (s : Str) : Option Nat :=
  (findSeq [c] s).map (fun pq => pq.1.length)

/-- Python `s.rfind(c)`. -/
def pyRFindChar (c : Char) (s : Str) : Option Nat :=
  (findSeq [c] s.reverse).map (fun pq => s.length - 1 - pq.1.length)

/-- Python slice `s[a:b]` for nonnegative bounds. -/
def pySlice (s : Str) (a b : Nat) : Str := (s.drop a).take (b - a)

/-- The JSON extraction logic of `parse_gemini_response`
(`travel_plan_prompt.py` lines 100 to 118): strip the response, then in order
of precedence unwrap a labelled fenced block (text between the first
occurrence of the labelled marker and the next plain fence), an unlabelled
fenced block (leading and trailing three characters removed, an inner `json`
tag dropped), or the span from the first opening brace to the last closing
brace; otherwise pass the stripped text through. -/
def extractJsonStr (response_text : Str) : Str :=
  let cleaned_text := pyStrip response_text
  if hasSeq fenceJson cleaned_text then
    pyStrip (split0 fence (split1 fenceJson cleaned_text))
  else if fence.isPrefixOf cleaned_text && fence.isSuffixOf cleaned_text then
    let json_str := pyStrip (pySlice cleaned_text 3 (cleaned_text.length - 3))
    if "json".data.isPrefixOf json_str then pyStrip (json_str.drop 4) else json_str
  else if cleaned_text.contains lbrace && cleaned_text.contains rbrace then
    let start_idx := (pyFindChar lbrace cleaned_text).getD 0
    let end_idx := (pyRFindChar rbrace cleaned_text).getD 0 + 1
    pySlice cleaned_text start_idx end_idx
  else cleaned_text

/-- The error value of the response parser: a `ValueError` whose message
embeds a preview of the offending response, raised either for a JSON decode
failure or for any other unexpected exception (both caught in the source). -/
inductive PErr where
  | jsonDecodeError (preview : Str)
  | unexpectedError (preview : Str)
deriving DecidableEq

/-- Model of `parse_gemini_response` (`travel_plan_prompt.py` lines 87 to
129): extract a JSON string, decode it, and on failure raise a `ValueError`
carrying the response truncated to the first 500 characters. -/
def parse_gemini_response (response_text : Str) : Except PErr Json :=
  match loads (extractJsonStr response_text) with
  | some parsed => .ok parsed
  | none => .error (.jsonDecodeError
      (if response_text.length > 500 then response_text.take 500 else response_text))

/-- Test-side construction from the spec: wrap a serialization in a labelled
fenced code block. -/
def wrapLabeled (s : Str) : Str := fenceJson ++ ('\n' :: (s ++ ('\n' :: fence)))

/-- Test-side construction from the spec: wrap a serialization in an
unlabelled fenced code block. -/
def wrapUnlabeled (s : Str) : Str := fence ++ ('\n' :: (s ++ ('\n' :: fence)))

/-- Test-side construction from the spec: embed a serialization among prose. -/
def wrapProse (pre s post : Str) : Str := pre ++ (s ++ post)

instance {ε α : Type} [DecidableEq ε] [DecidableEq α] : DecidableEq (Except ε α) := fun a b =>
  match a, b with
  | .ok x, .ok y => if h : x = y then isTrue (by rw [h]) else isFalse (by simp [h])
  | .error x, .error y => if h : x = y then isTrue (by rw [h]) else isFalse (by simp [h])
  | .ok _, .error _ => isFalse (fun h => Except.noConfusion h)
  | .error _, .ok _ => isFalse (fun h => Except.noConfusion h)

theorem not_prefix_of_head_ne {p0 c : Char} {pat' X : Str} (hne : p0 ≠ c) :
    ¬ (p0 :: pat') <+: (c :: X) := by
  rintro ⟨t, ht⟩
  rw [List.cons_append] at ht
  exact hne ((List.cons.injEq _ _ _ _).mp ht).1

theorem isDigit_facts2 {c : Char} (h : c.isDigit = true) :
    isPyWs c = false ∧ c ≠ btick := by
  have hne : ∀ d : Char, d.isDigit = false → c ≠ d := by
    intro d hd e
    subst e
    rw [h] at hd
    cases hd
  constructor
  · simp [isPyWs, hne ' ' (by decide), hne '\t' (by decide), hne '\n' (by decide),
      hne '\r' (by decide), hne (Char.ofNat 11) (by decide), hne (Char.ofNat 12) (by decide)]
  · exact hne btick (by decide)

theorem dumps_head_spec2 : ∀ j : Json, ∃ c l, dumps j = c :: l ∧
    isPyWs c = false ∧ c ≠ btick ∧ c ≠ 'j' := by
  intro j
  cases j with
  | null => exact ⟨'n', "ull".data, rfl, by decide, by decide, by decide⟩
  | bool b =>
    cases b with
    | true => exact ⟨'t', "rue".data, rfl, by decide, by decide, by decide⟩
    | false => exact ⟨'f', "alse".data, rfl, by decide, by decide, by decide⟩
  | num n =>
    cases n with
    | ofNat m =>
      obtain ⟨c, l, hcl⟩ : ∃ c l, natDigs m = c :: l := by
        cases hd : natDigs m with
        | nil => exact absurd hd (natDigs_ne_nil m)
        | cons a b => exact ⟨a, b, rfl⟩
      have hdig : c.isDigit = true :=
        natDigs_digits m c (by rw [hcl]; exact List.mem_cons_self c l)
      obtain ⟨h1, h2⟩ := isDigit_facts2 hdig
      have h3 : c ≠ 'j' := by
        intro e
        subst e
        exact absurd hdig (by decide)
      exact ⟨c, l, by simp [dumps, intRender, hcl], h1, h2, h3⟩
    | negSucc m =>
      exact ⟨'-', natDigs (m + 1), rfl, by decide, by decide, by decide⟩
  | str s => exact ⟨'\"', escStr s ++ ['\"'], rfl, by decide, by decide, by decide⟩
  | arr xs =>
    cases xs with
    | nil => exact ⟨'[', [']'], rfl, by decide, by decide, by decide⟩
    | cons x xs => exact ⟨'[', dumps x ++ dumpsArrTail xs, rfl, by decide, by decide, by decide⟩
  | obj kvs =>
    cases kvs with
    | nil => exact ⟨lbrace, [rbrace], rfl, by decide, by decide, by decide⟩
    | cons kv kvs =>
      exact ⟨lbrace, dumpsMem kv ++ dumpsObjTail kvs, rfl, by decide, by decide, by decide⟩

theorem natDigs_last (n : Nat) : ∃ u d, natDigs n = u ++ [d] ∧ d.isDigit = true := by
  by_cases h : n < 10
  · exact ⟨[], Nat.digitChar n, by simp [natDigs_lt10 h], digitChar_isDigit h⟩
  · exact ⟨natDigs (n / 10), Nat.digitChar (n % 10), natDigs_unfold h,
      digitChar_isDigit (by omega)⟩

theorem dumpsArrTail_last : ∀ xs : List Json, ∃ u, dumpsArrTail xs = u ++ [']'] := by
  intro xs
  induction xs with
  | nil => exact ⟨[], rfl⟩
  | cons x xs ih =>
    obtain ⟨u, hu⟩ := ih
    exact ⟨',' :: (dumps x ++ u), by simp [dumpsArrTail, hu]⟩

theorem dumpsObjTail_last : ∀ kvs : List (Str × Json), ∃ u, dumpsObjTail kvs = u ++ [rbrace] := by
  intro kvs
  induction kvs with
  | nil => exact ⟨[], rfl⟩
  | cons kv kvs ih =>
    obtain ⟨u, hu⟩ := ih
    exact ⟨',' :: (dumpsMem kv ++ u), by simp [dumpsObjTail, hu]⟩

theorem dumps_last_spec : ∀ j : Json, ∃ u d, dumps j = u ++ [d] ∧
    isPyWs d = false ∧ d ≠ btick := by
  intro j
  cases j with
  | null => exact ⟨"nul".data, 'l', by decide, by decide, by decide⟩
  | bool b =>
    cases b with
    | true => exact ⟨"tru".data, 'e', by decide, by decide, by decide⟩
    | false => exact ⟨"fals".data, 'e', by decide, by decide, by decide⟩
  | num n =>
    cases n with
    | ofNat m =>
      obtain ⟨u, d, hud, hdig⟩ := natDigs_last m
      obtain ⟨h1, h2⟩ := isDigit_facts2 hdig
      exact ⟨u, d, by simp [dumps, intRender, hud], h1, h2⟩
    | negSucc m =>
      obtain ⟨u, d, hud, hdig⟩ := natDigs_last (m + 1)
      obtain ⟨h1, h2⟩ := isDigit_facts2 hdig
      exact ⟨'-' :: u, d, by simp [dumps, intRender, hud], h1, h2⟩
  | str s =>
    exact ⟨'\"' :: escStr s, '\"', by simp [dumps], by decide, by decide⟩
  | arr xs =>
    cases xs with
    | nil => exact ⟨['['], ']', by decide, by decide, by decide⟩
    | cons x xs =>
      obtain ⟨u, hu⟩ := dumpsArrTail_last xs
      exact ⟨'[' :: (dumps x ++ u), ']', by simp [dumps, hu], by decide, by decide⟩
  | obj kvs =>
    cases kvs with
    | nil => exact ⟨[lbrace], rbrace, by decide, by decide, by decide⟩
    | cons kv kvs =>
      obtain ⟨u, hu⟩ := dumpsObjTail_last kvs
      exact ⟨lbrace :: (dumpsMem kv ++ u), rbrace, by simp [dumps, hu], by decide, by decide⟩

theorem lstrip_id {c : Char} {u : Str} (hc : isPyWs c = false) :
    lstripWs (c :: u) = c :: u := by
  simp [lstripWs, List.dropWhile_cons, hc]

theorem rstrip_id {d : Char} {u : Str} (hd : isPyWs d = false) :
    rstripWs (u ++ [d]) = u ++ [d] := by
  unfold rstripWs
  rw [List.reverse_append, List.reverse_singleton]
  rw [show ([d] ++ u.reverse : Str) = d :: u.reverse from rfl]
  rw [List.dropWhile_cons]
  simp [hd]

theorem pyStrip_id_shape {c d : Char} {m : Str} (hc : isPyWs c = false) (hd : isPyWs d = false) :
    pyStrip (c :: (m ++ [d])) = c :: (m ++ [d]) := by
  rw [pyStrip_eq, lstrip_id hc,
    show (c :: (m ++ [d]) : Str) = (c :: m) ++ [d] from by simp, rstrip_id hd]

theorem fenceJson_decomp_fence {s : Str} (hs : ∀ p q, s ≠ p ++ fence ++ q) :
    ∀ p q, s ≠ p ++ fenceJson ++ q := by
  intro p q e
  exact hs p (['j', 's', 'o', 'n'] ++ q) (by rw [e]; simp [fenceJson, fence])

theorem findSeq_fenceJson_inner {s : Str} (hs : ∀ p q, s ≠ p ++ fence ++ q) :
    findSeq fenceJson ('\n' :: (s ++ ('\n' :: fence))) = none := by
  refine findSeq_none (by decide) _ ?_
  intro a2 hsuf hne hp
  rcases List.suffix_cons_iff.mp hsuf with h1 | h1
  · subst h1
    exact not_prefix_of_head_ne (by decide : btick ≠ '\n') hp
  · rcases suffix_append_cases h1 with h2 | ⟨s2, hs2, rfl⟩
    · have hl1 : a2.length ≤ 4 := by
        have := h2.length_le
        simpa using this
      have hl2 : 7 ≤ a2.length := by
        have := hp.length_le
        simpa [fenceJson] using this
      omega
    · exact pat_block_nl (by decide) (fenceJson_decomp_fence hs) hs2 fence hp

theorem findSeq_fence_tail {s : Str} (hs : ∀ p q, s ≠ p ++ fence ++ q) :
    findSeq fence ('\n' :: (s ++ ('\n' :: fence))) =
      some ('\n' :: (s ++ ['\n']), []) := by
  rw [show ('\n' :: (s ++ ('\n' :: fence)) : Str) = ('\n' :: (s ++ ['\n'])) ++ fence by simp]
  rw [findSeq_shift _ fence ?obls]
  case obls =>
    intro a2 hsuf hne hp
    rcases List.suffix_cons_iff.mp hsuf with h1 | h1
    · subst h1
      rw [List.cons_append] at hp
      exact not_prefix_of_head_ne (by decide : btick ≠ '\n') hp
    · rcases suffix_append_cases h1 with h2 | ⟨s2, hs2, rfl⟩
      · rcases List.suffix_cons_iff.mp h2 with h3 | h3
        · subst h3
          rw [List.cons_append] at hp
          exact not_prefix_of_head_ne (by decide : btick ≠ '\n') hp
        · rw [List.suffix_nil.mp h3] at hne
          exact hne rfl
      · rw [List.append_assoc, List.singleton_append] at hp
        exact pat_block_nl (by decide) hs hs2 fence hp
  rw [findSeq_pref (List.isPrefixOf_iff_prefix.mpr List.prefix_rfl)]
  simp [fence]

theorem extractJsonStr_wrapLabeled {j : Json} (hb : hasSeq fence (dumps j) = false) :
    extractJsonStr (wrapLabeled (dumps j)) = dumps j := by
  have hs := no_decomp_of_not_hasSeq hb
  obtain ⟨c, l, hcl, hcw, _⟩ := dumps_head_spec2 j
  obtain ⟨u, d, hud, hdw, _⟩ := dumps_last_spec j
  have hshape : wrapLabeled (dumps j) =
      btick :: (([btick, btick, 'j', 's', 'o', 'n'] ++
        ('\n' :: (dumps j ++ ('\n' :: [btick, btick])))) ++ [btick]) := by
    simp [wrapLabeled, fenceJson, fence]
  have hstrip : pyStrip (wrapLabeled (dumps j)) = wrapLabeled (dumps j) := by
    rw [hshape, pyStrip_id_shape (by decide) (by decide)]
  have hfind1 : findSeq fenceJson (wrapLabeled (dumps j)) =
      some ([], '\n' :: (dumps j ++ ('\n' :: fence))) := by
    rw [show wrapLabeled (dumps j) =
      fenceJson ++ ('\n' :: (dumps j ++ ('\n' :: fence))) from rfl]
    rw [findSeq_pref (List.isPrefixOf_iff_prefix.mpr (List.prefix_append _ _))]
    rw [List.drop_left]
  have hhas : hasSeq fenceJson (wrapLabeled (dumps j)) = true := by
    rw [hasSeq, hfind1]
    rfl
  have hstrip2 : pyStrip ('\n' :: (dumps j ++ ['\n'])) = dumps j := by
    rw [pyStrip_eq]
    have h1 : lstripWs ('\n' :: (dumps j ++ ['\n'])) = dumps j ++ ['\n'] := by
      rw [lstripWs, List.dropWhile_cons]
      simp only [show isPyWs '\n' = true from by decide, if_true]
      rw [hcl, List.cons_append, List.dropWhile_cons]
      simp [hcw]
    have h2 : rstripWs (dumps j ++ ['\n']) = dumps j := by
      rw [rstripWs, List.reverse_append, List.reverse_singleton]
      rw [show (['\n'] ++ (dumps j).reverse : Str) = '\n' :: (dumps j).reverse from rfl]
      rw [List.dropWhile_cons]
      simp only [show isPyWs '\n' = true from by decide, if_true]
      rw [hud, List.reverse_append, List.reverse_singleton]
      rw [show ([d] ++ u.reverse : Str) = d :: u.reverse from rfl, List.dropWhile_cons]
      simp [hdw]
    rw [h1, h2]
  rw [extractJsonStr]
  simp only [hstrip, hhas, if_true]
  rw [split1, hfind1]
  simp only []
  rw [findSeq_fenceJson_inner hs]
  rw [split0, findSeq_fence_tail hs]
  simp only []
  exact hstrip2

theorem findSeq_fenceJson_unlabeled {s : Str} (hs7 : ∀ p q, s ≠ p ++ fenceJson ++ q) :
    findSeq fenceJson (wrapUnlabeled s) = none := by
  refine findSeq_none (by decide) _ ?_
  intro a2 hsuf hne hp
  rw [show wrapUnlabeled s =
    btick :: btick :: btick :: ('\n' :: (s ++ ('\n' :: fence))) from rfl] at hsuf
  rcases List.suffix_cons_iff.mp hsuf with h1 | h1
  · subst h1
    obtain ⟨t, ht⟩ := hp
    simp [fenceJson] at ht
  · rcases List.suffix_cons_iff.mp h1 with h2 | h2
    · subst h2
      obtain ⟨t, ht⟩ := hp
      simp [fenceJson] at ht
      exact absurd ht.1 (by decide)
    · rcases List.suffix_cons_iff.mp h2 with h3 | h3
      · subst h3
        obtain ⟨t, ht⟩ := hp
        simp [fenceJson] at ht
        exact absurd ht.1 (by decide)
      · rcases List.suffix_cons_iff.mp h3 with h4 | h4
        · subst h4
          exact not_prefix_of_head_ne (by decide : btick ≠ '\n') hp
        · rcases suffix_append_cases h4 with h5 | ⟨s2, hs2, rfl⟩
          · have hl1 : a2.length ≤ 4 := by
              have := h5.length_le
              simpa using this
            have hl2 : 7 ≤ a2.length := by
              have := hp.length_le
              simpa [fenceJson] using this
            omega
          · exact pat_block_nl (by decide) hs7 hs2 fence hp

theorem extractJsonStr_wrapUnlabeled {j : Json} (hb : hasSeq fenceJson (dumps j) = false) :
    extractJsonStr (wrapUnlabeled (dumps j)) = dumps j := by
  have hs7 := no_decomp_of_not_hasSeq hb
  obtain ⟨c, l, hcl, hcw, _, hcj⟩ := dumps_head_spec2 j
  obtain ⟨u, d, hud, hdw, _⟩ := dumps_last_spec j
  have hshape : wrapUnlabeled (dumps j) =
      btick :: (([btick, btick] ++
        ('\n' :: (dumps j ++ ('\n' :: [btick, btick])))) ++ [btick]) := by
    simp [wrapUnlabeled, fence]
  have hstrip : pyStrip (wrapUnlabeled (dumps j)) = wrapUnlabeled (dumps j) := by
    rw [hshape, pyStrip_id_shape (by decide) (by decide)]
  have hhas : hasSeq fenceJson (wrapUnlabeled (dumps j)) = false := by
    rw [hasSeq, findSeq_fenceJson_unlabeled hs7]
    rfl
  have hpre : fence.isPrefixOf (wrapUnlabeled (dumps j)) = true :=
    List.isPrefixOf_iff_prefix.mpr (List.prefix_append _ _)
  have hsuf : fence.isSuffixOf (wrapUnlabeled (dumps j)) = true := by
    refine List.isSuffixOf_iff_suffix.mpr ⟨fence ++ ('\n' :: (dumps j ++ ['\n'])), ?_⟩
    simp [wrapUnlabeled]
  have hlen : (wrapUnlabeled (dumps j)).length = (dumps j).length + 8 := by
    simp [wrapUnlabeled, fence]
  have hslice : pySlice (wrapUnlabeled (dumps j)) 3 ((wrapUnlabeled (dumps j)).length - 3) =
      '\n' :: (dumps j ++ ['\n']) := by
    rw [pySlice, hlen]
    rw [show wrapUnlabeled (dumps j) =
      fence ++ ('\n' :: (dumps j ++ ('\n' :: fence))) from rfl]
    rw [show (3 : Nat) = fence.length from rfl, List.drop_left]
    rw [show ('\n' :: (dumps j ++ ('\n' :: fence)) : Str) =
      ('\n' :: (dumps j ++ ['\n'])) ++ fence by simp]
    rw [show (dumps j).length + 8 - fence.length - fence.length =
      ('\n' :: (dumps j ++ ['\n'])).length by simp [fence]]
    exact List.take_left _ _
  have hstrip2 : pyStrip ('\n' :: (dumps j ++ ['\n'])) = dumps j := by
    rw [pyStrip_eq]
    have h1 : lstripWs ('\n' :: (dumps j ++ ['\n'])) = dumps j ++ ['\n'] := by
      rw [lstripWs, List.dropWhile_cons]
      simp only [show isPyWs '\n' = true from by decide, if_true]
      rw [hcl, List.cons_append, List.dropWhile_cons]
      simp [hcw]
    have h2 : rstripWs (dumps j ++ ['\n']) = dumps j := by
      rw [rstripWs, List.reverse_append, List.reverse_singleton]
      rw [show (['\n'] ++ (dumps j).reverse : Str) = '\n' :: (dumps j).reverse from rfl]
      rw [List.dropWhile_cons]
      simp only [show isPyWs '\n' = true from by decide, if_true]
      rw [hud, List.reverse_append, List.reverse_singleton]
      rw [show ([d] ++ u.reverse : Str) = d :: u.reverse from rfl, List.dropWhile_cons]
      simp [hdw]
    rw [h1, h2]
  have htag : "json".data.isPrefixOf (dumps j) = false := by
    rw [hcl]
    refine Bool.eq_false_iff.mpr (fun hbj => ?_)
    exact not_prefix_of_head_ne (fun e => hcj e.symm)
      (List.isPrefixOf_iff_prefix.mp hbj)
  rw [extractJsonStr]
  simp only [hstrip, hhas, Bool.false_eq_true, if_false, hpre, hsuf, Bool.and_self, if_true]
  rw [hslice, hstrip2, htag]
  simp

theorem dumps_obj_shape (kvs : List (Str × Json)) :
    ∃ mid, dumps (Json.obj kvs) = lbrace :: (mid ++ [rbrace]) := by
  cases kvs with
  | nil => exact ⟨[], rfl⟩
  | cons kv kvs =>
    obtain ⟨u, hu⟩ := dumpsObjTail_last kvs
    exact ⟨dumpsMem kv ++ u, by simp [dumps, hu]⟩

theorem mem_of_mem_lstrip {c : Char} {l : Str} (h : c ∈ lstripWs l) : c ∈ l :=
  (List.dropWhile_sublist _).subset h

theorem mem_of_mem_rstrip {c : Char} {l : Str} (h : c ∈ rstripWs l) : c ∈ l := by
  rw [rstripWs, List.mem_reverse] at h
  exact List.mem_reverse.mp ((List.dropWhile_sublist _).subset h)

theorem fence_pref_of_fenceJson_pref {u : Str} (h : fenceJson <+: u) : fence <+: u :=
  List.IsPrefix.trans (show fence <+: fenceJson from ⟨['j', 's', 'o', 'n'], rfl⟩) h

theorem findSeq_fenceJson_prose {s pre2 post2 : Str}
    (hs : ∀ p q, s ≠ p ++ fence ++ q)
    (hpre : btick ∉ pre2) (hpost : btick ∉ post2) :
    findSeq fenceJson (pre2 ++ (s ++ post2)) = none := by
  refine findSeq_none (by decide) _ ?_
  intro a2 hsuf hne hp
  have hpf : fence <+: a2 := fence_pref_of_fenceJson_pref hp
  rcases suffix_append_cases hsuf with h1 | ⟨p2, hp2, rfl⟩
  · rcases suffix_append_cases h1 with h2 | ⟨s2, hs2, rfl⟩
    · obtain ⟨t, ht⟩ := hpf
      have : btick ∈ a2 := by
        rw [← ht]
        simp [fence]
      exact hpost (h2.subset this)
    · exact fence_block_post hs hs2 hpost hpf
  · cases p2 with
    | nil =>
      rw [List.nil_append] at hpf
      exact fence_block_post hs List.suffix_rfl hpost
        (by rw [show s ++ post2 = s ++ post2 from rfl]; exact hpf)
    | cons c0 p2' =>
      exact @head_block fence _ rfl _ hpre (s ++ post2) (c0 :: p2')
        hp2 (by simp) hpf

theorem extractJsonStr_wrapProse {kvs : List (Str × Json)} {pre post : Str}
    (hb : hasSeq fence (dumps (Json.obj kvs)) = false)
    (hpre1 : btick ∉ pre) (hpre2 : lbrace ∉ pre)
    (hpost1 : btick ∉ post) (hpost2 : rbrace ∉ post) :
    extractJsonStr (wrapProse pre (dumps (Json.obj kvs)) post) = dumps (Json.obj kvs) := by
  have hs := no_decomp_of_not_hasSeq hb
  obtain ⟨mid, hmid⟩ := dumps_obj_shape kvs
  set s : Str := dumps (Json.obj kvs) with hsdef
  have hpre1' : btick ∉ lstripWs pre := fun h => hpre1 (mem_of_mem_lstrip h)
  have hpre2' : lbrace ∉ lstripWs pre := fun h => hpre2 (mem_of_mem_lstrip h)
  have hpost1' : btick ∉ rstripWs post := fun h => hpost1 (mem_of_mem_rstrip h)
  have hpost2' : rbrace ∉ rstripWs post := fun h => hpost2 (mem_of_mem_rstrip h)
  have hstrip : pyStrip (wrapProse pre s post) = lstripWs pre ++ (s ++ rstripWs post) := by
    rw [pyStrip_eq, wrapProse]
    have h1 : lstripWs (pre ++ (s ++ post)) = lstripWs pre ++ (s ++ post) := by
      rw [lstripWs, hmid, List.cons_append, lstrip_app (by decide)]
      rfl
    rw [h1]
    have h2 : rstripWs (lstripWs pre ++ (s ++ post)) =
        lstripWs pre ++ (s ++ rstripWs post) := by
      rw [hmid]
      rw [show lstripWs pre ++ (lbrace :: (mid ++ [rbrace]) ++ post) =
        ((lstripWs pre ++ (lbrace :: mid)) ++ [rbrace]) ++ post by simp]
      rw [rstrip_concat (by decide)]
      simp
    rw [h2]
  have hhas : hasSeq fenceJson (lstripWs pre ++ (s ++ rstripWs post)) = false := by
    rw [hasSeq, findSeq_fenceJson_prose hs hpre1' hpost1']
    rfl
  have hpfx : fence.isPrefixOf (lstripWs pre ++ (s ++ rstripWs post)) = false := by
    refine Bool.eq_false_iff.mpr (fun hbp => ?_)
    have hp := List.isPrefixOf_iff_prefix.mp hbp
    cases hlp : lstripWs pre with
    | nil =>
      rw [hlp, List.nil_append, hmid] at hp
      exact not_prefix_of_head_ne (by decide : btick ≠ lbrace) hp
    | cons c0 p' =>
      rw [hlp, List.cons_append] at hp
      have hc0 : c0 ∈ lstripWs pre := by
        rw [hlp]
        exact List.mem_cons_self _ _
      obtain ⟨t, ht⟩ := hp
      have ht2 : btick :: ([btick, btick] ++ t) = c0 :: (p' ++ (s ++ rstripWs post)) := ht
      have : btick = c0 := ((List.cons.injEq _ _ _ _).mp ht2).1
      exact hpre1' (this ▸ hc0)
  have hcontl : (lstripWs pre ++ (s ++ rstripWs post)).contains lbrace = true := by
    have : lbrace ∈ lstripWs pre ++ (s ++ rstripWs post) := by
      refine List.mem_append_right _ (List.mem_append_left _ ?_)
      rw [hmid]
      exact List.mem_cons_self _ _
    simpa using this
  have hcontr : (lstripWs pre ++ (s ++ rstripWs post)).contains rbrace = true := by
    have : rbrace ∈ lstripWs pre ++ (s ++ rstripWs post) := by
      refine List.mem_append_right _ (List.mem_append_left _ ?_)
      rw [hmid]
      simp
    simpa using this
  have hfindl : pyFindChar lbrace (lstripWs pre ++ (s ++ rstripWs post)) =
      some (lstripWs pre).length := by
    rw [pyFindChar, findSeq_shift _ _ (@head_block [lbrace] _ rfl _ hpre2' _)]
    rw [hmid, List.cons_append,
      findSeq_pref (List.isPrefixOf_iff_prefix.mpr (by
        exact ⟨(mid ++ [rbrace]) ++ rstripWs post, rfl⟩))]
    simp
  have hfindr : pyRFindChar rbrace (lstripWs pre ++ (s ++ rstripWs post)) =
      some ((lstripWs pre).length + s.length - 1) := by
    rw [pyRFindChar]
    rw [show (lstripWs pre ++ (s ++ rstripWs post)).reverse =
      (rstripWs post).reverse ++ (s.reverse ++ (lstripWs pre).reverse) by simp]
    rw [findSeq_shift _ _ (@head_block [rbrace] _ rfl _
      (fun h => hpost2' (List.mem_reverse.mp h)) _)]
    rw [show s.reverse = rbrace :: (mid.reverse ++ [lbrace]) by
      rw [hmid]; simp]
    rw [findSeq_pref (List.isPrefixOf_iff_prefix.mpr
      ⟨mid.reverse ++ [lbrace] ++ (lstripWs pre).reverse, by simp⟩)]
    have hslen : s.length = mid.length + 2 := by
      rw [hmid]; simp
    simp only [Option.map_some, List.length_append, List.length_reverse]
    simp [hslen]
    omega
  rw [extractJsonStr]
  simp only [hstrip, hhas, Bool.false_eq_true, if_false, hpfx, Bool.false_and, hcontl,
    hcontr, Bool.and_self, if_true, hfindl, hfindr, Option.getD_some]
  rw [pySlice, show (lstripWs pre).length + s.length - 1 + 1 - (lstripWs pre).length
      = s.length by
    have hslen : s.length = mid.length + 2 := by rw [hmid]; simp
    omega]
  rw [List.drop_left, List.take_left]

/-- The object used to refute claim C4 as stated: one of its string values
contains a three-backtick fence marker, which collides with the fenced-block
extraction of the response parser. -/
def c4CounterJson : Json := Json.obj [("a".data, Json.str fence)]

/-- C4 counterexample: wrapping the serialization of the object
`(in python notation) dict(a = three backticks)` in a labelled fenced code
block and parsing does not recover the object; the parser raises its decode
error instead, because the inner backticks terminate the fenced block early.
This refutes the claim that parsing recovers every object from every one of
the three wrappings. -/
theorem c4_counterexample :
    parse_gemini_response (wrapLabeled (dumps c4CounterJson)) =
      Except.error (PErr.jsonDecodeError (wrapLabeled (dumps c4CounterJson))) ∧
    Except.error (PErr.jsonDecodeError (wrapLabeled (dumps c4CounterJson))) ≠
      Except.ok c4CounterJson := by
  decide

/-- C4 (amended): serializing a JSON value and wrapping it in a labelled
fenced code block round-trips through `parse_gemini_response` provided the
serialization contains no three-backtick fence marker; wrapping in an
unlabelled fenced block round-trips provided the serialization contains no
labelled marker; and embedding the serialization of a JSON object in prose
round-trips provided prose and serialization are fence-free, the leading
prose has no opening brace and the trailing prose has no closing brace. -/
theorem c4_parser_round_trip_amended :
    (∀ j : Json, hasSeq fence (dumps j) = false →
      parse_gemini_response (wrapLabeled (dumps j)) = Except.ok j) ∧
    (∀ j : Json, hasSeq fenceJson (dumps j) = false →
      parse_gemini_response (wrapUnlabeled (dumps j)) = Except.ok j) ∧
    (∀ (kvs : List (Str × Json)) (pre post : Str),
      hasSeq fence (dumps (Json.obj kvs)) = false →
      btick ∉ pre → lbrace ∉ pre → btick ∉ post → rbrace ∉ post →
      parse_gemini_response (wrapProse pre (dumps (Json.obj kvs)) post) =
        Except.ok (Json.obj kvs)) := by
  refine ⟨?_, ?_, ?_⟩
  · intro j hbf
    rw [parse_gemini_response, extractJsonStr_wrapLabeled hbf, loads_dumps]
  · intro j hbf
    rw [parse_gemini_response, extractJsonStr_wrapUnlabeled hbf, loads_dumps]
  · intro kvs pre post hbf h1 h2 h3 h4
    rw [parse_gemini_response, extractJsonStr_wrapProse hbf h1 h2 h3 h4, loads_dumps]

/-- C4 witness: the amended round trip evaluated at the concrete object
`dict(a = 1)` for each of the three wrappings. -/
theorem c4_witness :
    parse_gemini_response (wrapLabeled (dumps (Json.obj [("a".data, Json.num 1)]))) =
      Except.ok (Json.obj [("a".data, Json.num 1)]) ∧
    parse_gemini_response (wrapUnlabeled (dumps (Json.obj [("a".data, Json.num 1)]))) =
      Except.ok (Json.obj [("a".data, Json.num 1)]) ∧
    parse_gemini_response (wrapProse ("note: ".data)
        (dumps (Json.obj [("a".data, Json.num 1)])) (" end".data)) =
      Except.ok (Json.obj [("a".data, Json.num 1)]) :=
  ⟨c4_parser_round_trip_amended.1 _ (by decide),
   c4_parser_round_trip_amended.2.1 _ (by decide),
   c4_parser_round_trip_amended.2.2 _ _ _ (by decide) (by decide) (by decide)
     (by decide) (by decide)⟩

/-- C8 (confirmed): on every input text, the response parser either succeeds
or fails with its typed decode error whose message preview is the offending
text truncated to at most 500 characters; it never produces any other kind of
failure. -/
theorem c8_parse_error_typed :
    ∀ t : Str, (∃ j, parse_gemini_response t = Except.ok j) ∨
      (parse_gemini_response t = Except.error (PErr.jsonDecodeError (t.take 500)) ∧
        (t.take 500).length ≤ 500) := by
  intro t
  rw [parse_gemini_response]
  cases h : loads (extractJsonStr t) with
  | some j => exact Or.inl ⟨j, rfl⟩
  | none =>
    refine Or.inr ⟨?_, by simp [List.length_take_le]⟩
    by_cases hl : t.length > 500
    · simp [hl]
    · simp only [hl, if_false]
      rw [List.take_of_length_le (by omega)]

/-- Python exception kinds arising in `validate_plan_structure`: the
`ValueError` messages it raises (tagged with the offending 0-based schedule
index where the f-string shows index + 1), plus the non-`ValueError`
exceptions possible on non-container operands. -/
inductive VKind where
  | missingRequiredKeys
  | schedulesNotList
  | schedulesEmpty
  | missingDay (i : Nat)
  | missingDate (i : Nat)
  | invalidTimeline (i : Nat)
deriving DecidableEq

/-- Python exceptions relevant to the validator model. -/
inductive PyExc where
  | valueError (k : VKind)
  | typeError
  | keyError
  | attributeError
deriving DecidableEq

/-- Python `x in container` for the values the validator can meet: key
membership for a dict, substring test for a string, element membership for a
list, `TypeError` otherwise. -/
def pyIn (x : Json) (container : Json) : Except PyExc Bool :=
  match container with
  | .obj kvs => .ok (kvs.any (fun kv => jeq (Json.str kv.1) x))
  | .arr xs => .ok (xs.any (fun e => jeq e x))
  | .str s =>
    match x with
    | .str sub => .ok (hasSeq sub s)
    | _ => .error .typeError
  | _ => .error .typeError

/-- Python `container[key]` for a string key: dict lookup, `TypeError` on a
non-dict (e.g. string indices must be integers). -/
def pyGetItem (container : Json) (key : Str) : Except PyExc Json :=
  match container with
  | .obj kvs =>
    match kvs.find? (fun kv => kv.1 == key) with
    | some kv => .ok kv.2
    | none => .error .keyError
  | _ => .error .typeError

/-- The per-schedule loop of `validate_plan_structure`
(`travel_plan_prompt.py` lines 156 to 162): each element must contain `day`
and `date`, and contain a `timeline` whose value is a list. -/
def checkSchedules : List Json → Nat → Except PyExc Bool
  | [], _ => .ok true
  | schedule :: rest, i => do
    let hday ← pyIn (.str "day".data) schedule
    if ¬ hday then .error (.valueError (.missingDay i))
    else do
      let hdate ← pyIn (.str "date".data) schedule
      if ¬ hdate then .error (.valueError (.missingDate i))
      else do
        let htl ← pyIn (.str "timeline".data) schedule
        if ¬ htl then .error (.valueError (.invalidTimeline i))
        else do
          let tl ← pyGetItem schedule "timeline".data
          match tl with
          | .arr _ => checkSchedules rest (i + 1)
          | _ => .error (.valueError (.invalidTimeline i))

/-- Model of `validate_plan_structure` (`travel_plan_prompt.py` lines 132 to
164): require the `schedules` key, require its value to be a non-empty list,
then run the per-schedule checks; returns `True` on success. -/
def validate_plan_structure (plan_dict : Json) : Except PyExc Bool :=
  match plan_dict with
  | .obj kvs =>
    if ¬ kvs.any (fun kv => kv.1 == "schedules".data) then
      .error (.valueError .missingRequiredKeys)
    else
      match (kvs.find? (fun kv => kv.1 == "schedules".data)).map (·.2) with
      | some (Json.arr ss) =>
        if ss.length = 0 then .error (.valueError .schedulesEmpty)
        else checkSchedules ss 0
      | _ => .error (.valueError .schedulesNotList)
  | _ => .error .attributeError

/-- Association-list lookup on a JSON object (first binding wins, matching
Python dict semantics in this model). -/
def jlookup (kvs : List (Str × Json)) (k : Str) : Option Json :=
  (kvs.find? (fun kv => kv.1 == k)).map (·.2)

/-- One schedule element is well-shaped: a dict containing `day`, `date`,
and a `timeline` key bound to a list. -/
def schedOk (e : Json) : Bool :=
  match e with
  | .obj skvs =>
    skvs.any (fun kv => kv.1 == "day".data) &&
    (skvs.any (fun kv => kv.1 == "date".data) &&
      (match jlookup skvs "timeline".data with
       | some (Json.arr _) => true
       | _ => false))
  | _ => false

/-- The plan shape `validate_plan_structure` accepts: a `schedules` key bound
to a non-empty list of well-shaped schedule elements. -/
def goodPlanShape (kvs : List (Str × Json)) : Bool :=
  match jlookup kvs "schedules".data with
  | some (Json.arr ss) => !ss.isEmpty && ss.all schedOk
  | _ => false

/-- All elements of the `schedules` list (when present) are dicts; on other
elements the validator can leave `ValueError` for a bare `TypeError`. -/
def allDictSchedules (kvs : List (Str × Json)) : Bool :=
  match jlookup kvs "schedules".data with
  | some (Json.arr ss) =>
    ss.all (fun e => match e with | .obj _ => true | _ => false)
  | _ => true

theorem any_key_iff_find {kvs : List (Str × Json)} {k : Str} :
    kvs.any (fun kv => kv.1 == k) = true ↔ (kvs.find? (fun kv => kv.1 == k)).isSome := by
  rw [List.any_eq_true, List.find?_isSome]

theorem checkSchedules_spec : ∀ (ss : List Json) (i : Nat),
    ss.all (fun e => match e with | Json.obj _ => true | _ => false) = true →
    ((checkSchedules ss i = Except.ok true ↔ ss.all schedOk = true) ∧
     (ss.all schedOk = false →
       ∃ k, checkSchedules ss i = Except.error (PyExc.valueError k))) := by
  intro ss
  induction ss with
  | nil =>
    intro i _
    simp [checkSchedules]
  | cons e rest ih =>
    intro i hdict
    rw [List.all_cons, Bool.and_eq_true] at hdict
    obtain ⟨he, hrest⟩ := hdict
    obtain ⟨ekvs, rfl⟩ : ∃ ekvs, e = Json.obj ekvs := by
      cases e with
      | obj ekvs => exact ⟨ekvs, rfl⟩
      | null => exact absurd he (by simp)
      | bool b => exact absurd he (by simp)
      | num n => exact absurd he (by simp)
      | str s => exact absurd he (by simp)
      | arr xs => exact absurd he (by simp)
    have hjeq : ∀ k : Str, (fun kv : Str × Json => jeq (Json.str kv.1) (Json.str k)) =
        (fun kv : Str × Json => kv.1 == k) := by
      intro k
      funext kv
      simp [jeq]
    simp only [checkSchedules, pyIn, bind, Except.bind, hjeq]
    by_cases h1 : ekvs.any (fun kv => kv.1 == "day".data) = true
    · simp only [h1, eq_self_iff_true, not_true, if_false]
      by_cases h2 : ekvs.any (fun kv => kv.1 == "date".data) = true
      · simp only [h2, eq_self_iff_true, not_true, if_false]
        by_cases h3 : ekvs.any (fun kv => kv.1 == "timeline".data) = true
        · simp only [h3, eq_self_iff_true, not_true, if_false]
          obtain ⟨kv0, hkv0⟩ : ∃ kv0,
              ekvs.find? (fun kv => kv.1 == "timeline".data) = some kv0 := by
            have := any_key_iff_find.mp h3
            exact Option.isSome_iff_exists.mp this
          simp only [pyGetItem, hkv0]
          cases hv : kv0.2 with
          | arr xs =>
            simp only []
            have hmain := ih (i + 1) hrest
            constructor
            · rw [hmain.1]
              simp only [List.all_cons, schedOk, h1, h2, jlookup, hkv0,
                Option.map_some, hv, Bool.true_and]
              simp [hv]
            · intro hbad
              rw [List.all_cons, schedOk] at hbad
              simp only [h1, h2, jlookup, hkv0, hv, Bool.true_and] at hbad
              rcases Bool.and_eq_false_iff.mp hbad with hb | hb
              · simp [hv] at hb
              · obtain ⟨k, hk⟩ := hmain.2 hb
                exact ⟨k, hk⟩
          | null =>
            simp only []
            constructor
            · constructor
              · intro h
                exact absurd h (by simp)
              · intro h
                rw [List.all_cons, schedOk] at h
                simp [jlookup, hkv0, hv] at h
            · intro _
              exact ⟨.invalidTimeline i, rfl⟩
          | bool b =>
            simp only []
            constructor
            · constructor
              · intro h
                exact absurd h (by simp)
              · intro h
                rw [List.all_cons, schedOk] at h
                simp [jlookup, hkv0, hv] at h
            · intro _
              exact ⟨.invalidTimeline i, rfl⟩
          | num n =>
            simp only []
            constructor
            · constructor
              · intro h
                exact absurd h (by simp)
              · intro h
                rw [List.all_cons, schedOk] at h
                simp [jlookup, hkv0, hv] at h
            · intro _
              exact ⟨.invalidTimeline i, rfl⟩
          | str s =>
            simp only []
            constructor
            · constructor
              · intro h
                exact absurd h (by simp)
              · intro h
                rw [List.all_cons, schedOk] at h
                simp [jlookup, hkv0, hv] at h
            · intro _
              exact ⟨.invalidTimeline i, rfl⟩
          | obj okvs =>
            simp only []
            constructor
            · constructor
              · intro h
                exact absurd h (by simp)
              · intro h
                rw [List.all_cons, schedOk] at h
                simp [jlookup, hkv0, hv] at h
            · intro _
              exact ⟨.invalidTimeline i, rfl⟩
        · simp only [h3]
          rw [if_pos (by simp [h3])]
          constructor
          · constructor
            · intro h
              exact absurd h (by simp)
            · intro h
              rw [List.all_cons, schedOk] at h
              have : jlookup ekvs "timeline".data = none := by
                rw [jlookup, Option.map_eq_none']
                rw [List.find?_eq_none]
                intro kv hkv
                intro hb
                exact h3 (List.any_eq_true.mpr ⟨kv, hkv, hb⟩)
              simp [this] at h
          · intro _
            exact ⟨.invalidTimeline i, rfl⟩
      · simp only [h2]
        rw [if_pos (by simp [h2])]
        constructor
        · constructor
          · intro h
            exact absurd h (by simp)
          · intro h
            rw [List.all_cons, schedOk] at h
            simp [h2] at h
        · intro _
          exact ⟨.missingDate i, rfl⟩
    · simp only [h1]
      rw [if_pos (by simp [h1])]
      constructor
      · constructor
        · intro h
          exact absurd h (by simp)
        · intro h
          rw [List.all_cons, schedOk] at h
          simp [h1] at h
      · intro _
        exact ⟨.missingDay i, rfl⟩

/-- Shape check of the value bound to `schedules`. -/
def shapeOfVal (v : Json) : Bool :=
  match v with
  | Json.arr ss => !ss.isEmpty && ss.all schedOk
  | _ => false

/-- Dict-elements check of the value bound to `schedules`. -/
def dictOfVal (v : Json) : Bool :=
  match v with
  | Json.arr ss => ss.all (fun e => match e with | Json.obj _ => true | _ => false)
  | _ => true

/-- C5 (amended): on a dict whose `schedules` elements are all dicts,
`validate_plan_structure` returns `True` exactly when the dict has a
`schedules` key bound to a non-empty list each of whose elements contains
`day`, `date`, and a `timeline` bound to a list; on every other such dict it
raises a structural `ValueError` naming the missing key or malformed field.
The original claim is refuted by `c5_counterexample`: containing the three
keys is not enough, the `timeline` value must itself be a list. -/
theorem c5_validate_plan_structure_amended :
    ∀ kvs : List (Str × Json), allDictSchedules kvs = true →
    ((validate_plan_structure (Json.obj kvs) = Except.ok true ↔ goodPlanShape kvs = true) ∧
     (goodPlanShape kvs = false →
       ∃ k, validate_plan_structure (Json.obj kvs) = Except.error (PyExc.valueError k))) := by
  intro kvs hdict
  rw [validate_plan_structure]
  by_cases hfound : kvs.any (fun kv => kv.1 == "schedules".data) = true
  · simp only [hfound, eq_self_iff_true, not_true, if_false]
    obtain ⟨kv0, hkv0⟩ : ∃ kv0,
        kvs.find? (fun kv => kv.1 == "schedules".data) = some kv0 :=
      Option.isSome_iff_exists.mp (any_key_iff_find.mp hfound)
    obtain ⟨k0, v0⟩ := kv0
    simp only [hkv0, Option.map_some]
    have hshape0 : goodPlanShape kvs = shapeOfVal v0 := by
      rw [goodPlanShape, jlookup, hkv0, Option.map_some']
      cases v0 <;> rfl
    have hdict0 : allDictSchedules kvs = dictOfVal v0 := by
      rw [allDictSchedules, jlookup, hkv0, Option.map_some']
      cases v0 <;> rfl
    cases v0 with
    | arr ss =>
      rw [shapeOfVal] at hshape0
      rw [dictOfVal] at hdict0
      simp only [Option.map_some']
      by_cases hlen : ss.length = 0
      · simp only [hlen, eq_self_iff_true, if_true]
        have hsse : ss = [] := List.length_eq_zero.mp hlen
        have hshape : goodPlanShape kvs = false := by
          rw [hshape0, hsse]
          rfl
        constructor
        · rw [hshape]
          simp
        · intro _
          exact ⟨.schedulesEmpty, rfl⟩
      · simp only [hlen, if_false]
        have hdict2 : ss.all (fun e => match e with | Json.obj _ => true | _ => false) = true := by
          rw [hdict0] at hdict
          exact hdict
        have hspec := checkSchedules_spec ss 0 hdict2
        have hne : ss.isEmpty = false := by
          cases ss with
          | nil => exact absurd rfl hlen
          | cons a b => rfl
        constructor
        · rw [hspec.1, hshape0, hne]
          simp
        · intro hbad
          rw [hshape0, hne] at hbad
          simp only [Bool.not_false, Bool.true_and] at hbad
          exact hspec.2 hbad
    | null =>
      exact ⟨by rw [hshape0]; simp [shapeOfVal], fun _ => ⟨.schedulesNotList, rfl⟩⟩
    | bool b =>
      exact ⟨by rw [hshape0]; simp [shapeOfVal], fun _ => ⟨.schedulesNotList, rfl⟩⟩
    | num n =>
      exact ⟨by rw [hshape0]; simp [shapeOfVal], fun _ => ⟨.schedulesNotList, rfl⟩⟩
    | str s =>
      exact ⟨by rw [hshape0]; simp [shapeOfVal], fun _ => ⟨.schedulesNotList, rfl⟩⟩
    | obj okvs =>
      exact ⟨by rw [hshape0]; simp [shapeOfVal], fun _ => ⟨.schedulesNotList, rfl⟩⟩
  · rw [if_pos (by simp [hfound])]
    have hshape : goodPlanShape kvs = false := by
      rw [goodPlanShape, jlookup]
      have hf : kvs.find? (fun kv => kv.1 == "schedules".data) = none := by
        rcases hf : kvs.find? (fun kv => kv.1 == "schedules".data) with _ | kv0
        · exact hf
        · exact absurd (any_key_iff_find.mpr (by rw [hf]; rfl)) hfound
      rw [hf]
      rfl
    refine ⟨by rw [hshape]; simp, fun _ => ⟨.missingRequiredKeys, rfl⟩⟩

/-- The dict used to refute claim C5 as stated: its single schedule contains
the keys `day`, `date`, and `timeline`, yet the validator raises instead of
returning `True`, because the `timeline` value is a number and not a list. -/
def c5CounterPlan : Json :=
  Json.obj [("schedules".data,
    Json.arr [Json.obj [("day".data, Json.num 1), ("date".data, Json.str "d".data),
      ("timeline".data, Json.num 5)]])]

/-- C5 counterexample: an object with a non-empty `schedules` list all of
whose elements contain the keys `day`, `date` and `timeline` on which
`validate_plan_structure` does not return `True` but raises the
timeline-validation `ValueError`, refuting the claim as stated. -/
theorem c5_counterexample :
    validate_plan_structure c5CounterPlan =
      Except.error (PyExc.valueError (VKind.invalidTimeline 0)) ∧
    Except.error (PyExc.valueError (VKind.invalidTimeline 0)) ≠
      (Except.ok true : Except PyExc Bool) := by
  decide

/-- C5 witness: the amended characterization evaluated at a concrete
well-shaped plan and at a concrete plan with a missing key. -/
theorem c5_witness :
    validate_plan_structure (Json.obj [("schedules".data,
      Json.arr [Json.obj [("day".data, Json.num 1), ("date".data, Json.str "d".data),
        ("timeline".data, Json.arr [])]])]) = Except.ok true :=
  (c5_validate_plan_structure_amended _ (by decide)).1.mpr (by decide)

/-- The travel-input record (`models/travel_plan.py` lines 11 to 19):
pydantic model with required origin, destination, start and end date strings,
an integer budget, a default-empty interests list and optional notes. -/
structure TravelInput where
  origin : Str
  destination : Str
  start_date : Str
  end_date : Str
  budget : Int
  interests : List Str
  additional_notes : Option Str
deriving DecidableEq

/-- Gregorian leap year. -/
def isLeap (y : Nat) : Bool := (y % 4 = 0 && ¬ y % 100 = 0) || y % 400 = 0

/-- Days in a month of the proleptic Gregorian calendar. -/
def daysInMonth (y m : Nat) : Nat :=
  if m = 2 then (if isLeap y then 29 else 28)
  else if m = 4 || m = 6 || m = 9 || m = 11 then 30
  else 31

/-- Numeric value of a digit character. -/
def digitVal (c : Char) : Nat := c.toNat - 48

/-- Parse one or two digits, greedily (the `%m` and `%d` behaviour of
`datetime.strptime`). -/
def parse12 (s : Str) : Option (Nat × Str) :=
  match s with
  | c1 :: c2 :: r =>
    if c1.isDigit then
      if c2.isDigit then some (digitVal c1 * 10 + digitVal c2, r)
      else some (digitVal c1, c2 :: r)
    else none
  | [c1] => if c1.isDigit then some (digitVal c1, []) else none
  | [] => none

/-- Parse exactly four digits (the `%Y` behaviour of `datetime.strptime`). -/
def parse4 (s : Str) : Option (Nat × Str) :=
  match s with
  | c1 :: c2 :: c3 :: c4 :: r =>
    if c1.isDigit && (c2.isDigit && (c3.isDigit && c4.isDigit)) then
      some (((digitVal c1 * 10 + digitVal c2) * 10 + digitVal c3) * 10 + digitVal c4, r)
    else none
  | _ => none

/-- Model of `datetime.strptime(s, "%Y-%m-%d")`: four year digits, dash, one
or two month digits, dash, one or two day digits, whole string consumed, and
the triple must denote a real calendar date in years 1 to 9999. -/
def parseDate (s : Str) : Option (Nat × Nat × Nat) := do
  let (y, r1) ← parse4 s
  match r1 with
  | '-' :: r2 => do
    let (m, r3) ← parse12 r2
    match r3 with
    | '-' :: r4 => do
      let (d, r5) ← parse12 r4
      if r5.isEmpty then
        if 1 ≤ y && (y ≤ 9999 && (1 ≤ m && (m ≤ 12 && (1 ≤ d && d ≤ daysInMonth y m)))) then
          some (y, m, d)
        else none
      else none
    | _ => none
  | _ => none

/-- Day number of a proleptic Gregorian date (days since 0000-03-01,
Hinnant's civil-from-days construction); only differences matter, matching
`datetime` subtraction. -/
def gdays : Nat × Nat × Nat → Nat
  | (y, m, d) =>
    let y2 := if m ≤ 2 then y - 1 else y
    let era := y2 / 400
    let yoe := y2 % 400
    let mp := (m + 9) % 12
    let doy := (153 * mp + 2) / 5 + d - 1
    let doe := yoe * 365 + yoe / 4 - yoe / 100 + doy
    era * 146097 + doe

/-- `(end - start).days` of `datetime` subtraction. -/
def dateDiffDays (ds de : Nat × Nat × Nat) : Int := (gdays de : Int) - (gdays ds : Int)

/-- Group the reversed digit string in threes, inserting commas (fuel-based
for kernel reducibility). -/
def commaFmtRevAux : Nat → Str → Str
  | 0, ds => ds
  | f + 1, ds =>
    if ds.length ≤ 3 then ds
    else ds.take 3 ++ (',' :: commaFmtRevAux f (ds.drop 3))

/-- Python format `f"{n:,}"`: decimal with thousands separators. -/
def commaFmt (n : Int) : Str :=
  match n with
  | Int.ofNat m => (commaFmtRevAux (natDigs m).length (natDigs m).reverse).reverse
  | Int.negSucc m =>
    '-' :: (commaFmtRevAux (natDigs (m + 1)).length (natDigs (m + 1)).reverse).reverse

/-- Python `", ".join`. -/
def joinComma : List Str → Str
  | [] => []
  | [s] => s
  | s :: rest => s ++ (',' :: ' ' :: joinComma rest)

example : commaFmt 100000 = "100,000".data := by decide
example : commaFmt 1234567 = "1,234,567".data := by decide
example : parseDate ("2025-01-01".data) = some (2025, 1, 1) := by decide
example : parseDate ("2025-02-30".data) = none := by decide
example : dateDiffDays (2025, 1, 1) (2025, 1, 5) = 4 := by decide

/-- The prompt template of `create_travel_prompt` (`travel_plan_prompt.py`
lines 29 to 82), split at its interpolation holes.  Literal braces of the
embedded JSON example are written as character escapes. -/
def tpl1 : Str := "あなたは旅行プランナーです。以下の条件で".data

/-- Template chunk between the day count and the origin. -/
def tpl2 : Str := "日間の旅行プランをJSON形式で生成してください。\n\n## 旅行条件\n出発地: ".data

/-- Template chunk between the origin and the destination. -/
def tpl3 : Str := "\n目的地: ".data

/-- Template chunk between the destination and the start date. -/
def tpl4 : Str := "\n開始日: ".data

/-- Template chunk between the start date and the end date. -/
def tpl5 : Str := "\n終了日: ".data

/-- Template chunk between the end date and the repeated day count. -/
def tpl6 : Str := "\n日数: ".data

/-- Template chunk between the day count and the formatted budget. -/
def tpl7 : Str := "日間\n予算: ¥".data

/-- Template chunk between the budget and the interests list. -/
def tpl8 : Str := "\n興味: ".data

/-- Template chunk between the interests and the additional notes. -/
def tpl9 : Str := "\n追加要望: ".data

/-- Template chunk between the notes and the repeated start date inside the
JSON example. -/
def tpl10 : Str := ("\n\n## 必須要件\n1. 各日は朝食・観光・昼食・観光・夕食を含める\n2. 時刻はHH:MM形式（24時間制）\n3. 費用は日本円で記載\n4. durationは分単位\n5. 予算内に収める\n\n## 出力形式\n必ず以下のJSON形式のみを返してください。説明文は一切含めないでください。\n\n\x7b\n  \"schedules\": [\n    \x7b\n      \"day\": 1,\n      \"date\": \"").data

/-- Template chunk between the start date and the destination inside the
JSON example. -/
def tpl11 : Str := ("\",\n      \"timeline\": [\n        \x7b\n          \"time\": \"08:00\",\n          \"activity\": \"朝食\",\n          \"location\": \"ホテル\",\n          \"cost\": 1500,\n          \"duration\": 60,\n          \"notes\": \"和定食\"\n        \x7d,\n        \x7b\n          \"time\": \"09:30\",\n          \"activity\": \"観光スポット\",\n          \"location\": \"").data

/-- Template chunk between the destination and the plain budget inside the
JSON example. -/
def tpl12 : Str := ("の名所\",\n          \"cost\": 1000,\n          \"duration\": 120,\n          \"notes\": \"朝一番がおすすめ\"\n        \x7d\n      ],\n      \"daily_cost\": 10000,\n      \"daily_duration\": 600\n    \x7d\n  ],\n  \"total_cost\": ").data

/-- Template chunk between the budget and the total duration. -/
def tpl13 : Str := ",\n  \"total_duration\": ".data

/-- Closing template chunk. -/
def tpl14 : Str := ("\n\x7d\n\n重要: JSONのみを返し、```json```のマーカーも含めないでください。").data

/-- The fully interpolated (unstripped) prompt body. -/
def promptText (ti : TravelInput) (interests_str additional_notes : Str)
    (num_days : Int) : Str :=
  tpl1 ++ intRender num_days ++ tpl2 ++ ti.origin ++ tpl3 ++ ti.destination ++
  tpl4 ++ ti.start_date ++ tpl5 ++ ti.end_date ++ tpl6 ++ intRender num_days ++
  tpl7 ++ commaFmt ti.budget ++ tpl8 ++ interests_str ++ tpl9 ++ additional_notes ++
  tpl10 ++ ti.start_date ++ tpl11 ++ ti.destination ++ tpl12 ++
  intRender ti.budget ++ tpl13 ++ intRender (num_days * 600) ++ tpl14

/-- Failure of the prompt builder: `datetime.strptime` raises on a date
string not matching `%Y-%m-%d`. -/
inductive PromptErr where
  | dateFormatError
deriving DecidableEq

/-- Model of `create_travel_prompt` (`travel_plan_prompt.py` lines 11 to 84):
join interests (or the no-preference default), default empty or missing
notes, parse both dates, compute the inclusive day count, interpolate the
template and strip it. -/
def interestsStr (travel_input : TravelInput) : Str :=
  if travel_input.interests.isEmpty then "特に指定なし".data
  else joinComma travel_input.interests

/-- The `additional_notes or "特になし"` defaulting (`or` is falsy on both
`None` and the empty string). -/
def notesStr (travel_input : TravelInput) : Str :=
  match travel_input.additional_notes with
  | some s => if s.isEmpty then "特になし".data else s
  | none => "特になし".data

def create_travel_prompt (travel_input : TravelInput) : Except PromptErr Str :=
  match parseDate travel_input.start_date, parseDate travel_input.end_date with
  | some ds, some de =>
    .ok (pyStrip (promptText travel_input (interestsStr travel_input)
      (notesStr travel_input) (dateDiffDays ds de + 1)))
  | _, _ => .error .dateFormatError

/-- The concrete scenario input from the spec. -/
def tokyoInput : TravelInput :=
  { origin := "Tokyo".data, destination := "Kyoto".data,
    start_date := "2025-01-01".data, end_date := "2025-01-05".data,
    budget := 100000, interests := [], additional_notes := none }

theorem pyStrip_promptText (ti : TravelInput) (istr notes : Str) (nd : Int) :
    pyStrip (promptText ti istr notes nd) = promptText ti istr notes nd := by
  have h1 : lstripWs (promptText ti istr notes nd) = promptText ti istr notes nd := by
    rw [promptText,
      show tpl1 = 'あ' :: ("なたは旅行プランナーです。以下の条件で".data) from rfl]
    simp only [List.cons_append, List.append_assoc]
    exact lstrip_id (by decide)
  have h2 : rstripWs (promptText ti istr notes nd) = promptText ti istr notes nd := by
    rw [promptText,
      show tpl14 =
        ("\n\x7d\n\n重要: JSONのみを返し、```json```のマーカーも含めないでください".data)
          ++ ['。'] from rfl,
      ← List.append_assoc]
    rw [rstrip_id (by decide)]
  rw [pyStrip_eq, h1, h2]

set_option maxRecDepth 20000 in
/-- C6 (confirmed): for every TravelInput whose start and end dates parse as
calendar dates with the start strictly before the end, the prompt builder
succeeds with a non-empty prompt containing the origin, the destination and
the inclusive day count; and on the concrete scenario (Tokyo to Kyoto,
2025-01-01 to 2025-01-05, budget 100000) the prompt mentions both dates, the
comma-formatted budget 100,000, and the five-day count. -/
theorem c6_create_travel_prompt :
    (∀ (ti : TravelInput) (ds de : Nat × Nat × Nat),
      parseDate ti.start_date = some ds → parseDate ti.end_date = some de →
      gdays ds < gdays de →
      ∃ p, create_travel_prompt ti = Except.ok p ∧ p ≠ [] ∧
        (ti.origin <:+: p) ∧ (ti.destination <:+: p) ∧
        ((intRender (dateDiffDays ds de + 1) ++ "日間".data) <:+: p)) ∧
    (∃ p, create_travel_prompt tokyoInput = Except.ok p ∧
      ("2025-01-01".data <:+: p) ∧ ("2025-01-05".data <:+: p) ∧
      ("100,000".data <:+: p) ∧ ("5日間".data <:+: p)) := by
  constructor
  · intro ti ds de hds hde _
    simp only [create_travel_prompt, hds, hde]
    refine ⟨promptText ti (interestsStr ti) (notesStr ti) (dateDiffDays ds de + 1),
      by rw [pyStrip_promptText], ?_, ?_, ?_, ?_⟩
    · rw [promptText,
        show tpl1 = 'あ' :: ("なたは旅行プランナーです。以下の条件で".data) from rfl]
      simp
    · refine ⟨tpl1 ++ intRender (dateDiffDays ds de + 1) ++ tpl2,
        tpl3 ++ ti.destination ++ tpl4 ++ ti.start_date ++ tpl5 ++ ti.end_date ++
          tpl6 ++ intRender (dateDiffDays ds de + 1) ++ tpl7 ++ commaFmt ti.budget ++
          tpl8 ++ interestsStr ti ++ tpl9 ++ notesStr ti ++ tpl10 ++ ti.start_date ++
          tpl11 ++ ti.destination ++ tpl12 ++ intRender ti.budget ++ tpl13 ++
          intRender ((dateDiffDays ds de + 1) * 600) ++ tpl14, ?_⟩
      simp [promptText, List.append_assoc]
    · refine ⟨tpl1 ++ intRender (dateDiffDays ds de + 1) ++ tpl2 ++ ti.origin ++ tpl3,
        tpl4 ++ ti.start_date ++ tpl5 ++ ti.end_date ++
          tpl6 ++ intRender (dateDiffDays ds de + 1) ++ tpl7 ++ commaFmt ti.budget ++
          tpl8 ++ interestsStr ti ++ tpl9 ++ notesStr ti ++ tpl10 ++ ti.start_date ++
          tpl11 ++ ti.destination ++ tpl12 ++ intRender ti.budget ++ tpl13 ++
          intRender ((dateDiffDays ds de + 1) * 600) ++ tpl14, ?_⟩
      simp [promptText, List.append_assoc]
    · refine ⟨tpl1 ++ intRender (dateDiffDays ds de + 1) ++ tpl2 ++ ti.origin ++ tpl3 ++
          ti.destination ++ tpl4 ++ ti.start_date ++ tpl5 ++ ti.end_date ++ tpl6,
        "\n予算: ¥".data ++ commaFmt ti.budget ++
          tpl8 ++ interestsStr ti ++ tpl9 ++ notesStr ti ++ tpl10 ++ ti.start_date ++
          tpl11 ++ ti.destination ++ tpl12 ++ intRender ti.budget ++ tpl13 ++
          intRender ((dateDiffDays ds de + 1) * 600) ++ tpl14, ?_⟩
      simp [promptText, List.append_assoc,
        show tpl7 = "日間".data ++ "\n予算: ¥".data from rfl]
  · refine ⟨pyStrip (promptText tokyoInput (interestsStr tokyoInput)
      (notesStr tokyoInput) (dateDiffDays (2025, 1, 1) (2025, 1, 5) + 1)),
      ?_, ?_, ?_, ?_, ?_⟩ <;> decide

/-- C6 witness: the universal prompt-builder property instantiated at the
concrete Tokyo-to-Kyoto scenario. -/
theorem c6_witness :
    ∃ p, create_travel_prompt tokyoInput = Except.ok p ∧ p ≠ [] ∧
      ("Tokyo".data <:+: p) ∧ ("Kyoto".data <:+: p) ∧
      ((intRender (dateDiffDays (2025, 1, 1) (2025, 1, 5) + 1) ++ "日間".data) <:+: p) :=
  c6_create_travel_prompt.1 tokyoInput (2025, 1, 1) (2025, 1, 5)
    (by decide) (by decide) (by decide)

/-- Python truthiness on JSON-like values. -/
def pyTruthy : Json → Bool
  | .null => false
  | .bool b => b
  | .num n => decide (¬ n = 0)
  | .str s => !s.isEmpty
  | .arr xs => !xs.isEmpty
  | .obj kvs => !kvs.isEmpty

/-- The required-field list of `validate_travel_input`
(`utils/validators.py` line 24). -/
def requiredFields : List Str :=
  ["origin".data, "destination".data, "start_date".data, "end_date".data, "budget".data]

/-- The required-field loop: first field that is absent or falsy. -/
def checkRequired (data : List (Str × Json)) : List Str → Option Str
  | [] => none
  | f :: rest =>
    match jlookup data f with
    | some v => if pyTruthy v then checkRequired data rest else some f
    | none => some f

/-- Errors of the validator model: its own typed `ValidationError`s, plus the
uncaught `TypeError` that `strptime` raises on a non-string date value. -/
inductive VMsg where
  | missingField (f : Str)
  | badDateFormat
  | dateOrder
  | badBudget
deriving DecidableEq

/-- Exception outcome of the validator. -/
inductive PyVErr where
  | validationError (m : VMsg)
  | typeErr
deriving DecidableEq

/-- Model of `validate_travel_input` (`utils/validators.py` lines 10 to 44):
require the five fields present and truthy, parse both dates with
`strptime("%Y-%m-%d")`, require start strictly before end, and require the
budget to be a positive number (`bool` counts as a number in Python). -/
def validate_travel_input (data : List (Str × Json)) : Except PyVErr Bool :=
  match checkRequired data requiredFields with
  | some f => .error (.validationError (.missingField f))
  | none =>
    match jlookup data ("start_date".data), jlookup data ("end_date".data) with
    | some (Json.str sd), some (Json.str ed) =>
      match parseDate sd, parseDate ed with
      | some ds, some de =>
        if gdays de ≤ gdays ds then .error (.validationError .dateOrder)
        else
          match jlookup data ("budget".data) with
          | some (Json.num n) =>
            if n ≤ 0 then .error (.validationError .badBudget) else .ok true
          | some (Json.bool b) =>
            if b then .ok true else .error (.validationError .badBudget)
          | _ => .error (.validationError .badBudget)
      | _, _ => .error (.validationError .badDateFormat)
    | _, _ => .error .typeErr

/-- The inputs `validate_travel_input` accepts, written as one flat check:
all required fields present and truthy, both dates valid with start strictly
before end, and a positive numeric budget. -/
def wellFormedTravelInput (data : List (Str × Json)) : Bool :=
  (requiredFields.all fun f =>
    match jlookup data f with
    | some v => pyTruthy v
    | none => false) &&
  ((match jlookup data ("start_date".data), jlookup data ("end_date".data) with
    | some (Json.str sd), some (Json.str ed) =>
      (match parseDate sd, parseDate ed with
       | some ds, some de => decide (gdays ds < gdays de)
       | _, _ => false)
    | _, _ => false) &&
   (match jlookup data ("budget".data) with
    | some (Json.num n) => decide (0 < n)
    | some (Json.bool b) => b
    | _ => false))

/-- Model of the pydantic/FastAPI validation of a request body against the
`TravelInput` model, which is all the checking `POST /api/plans` performs:
field presence and declared types only (lax numeric-string coercions
omitted); no date-order or budget-sign requirement. -/
def parseTravelInput (j : Json) : Option TravelInput :=
  match j with
  | Json.obj kvs =>
    match jlookup kvs ("origin".data), jlookup kvs ("destination".data),
      jlookup kvs ("start_date".data), jlookup kvs ("end_date".data),
      jlookup kvs ("budget".data) with
    | some (Json.str o), some (Json.str d), some (Json.str sd),
      some (Json.str ed), some (Json.num b) =>
      let interests : Option (List Str) :=
        match jlookup kvs ("interests".data) with
        | some (Json.arr xs) =>
          xs.foldr (fun x acc =>
            match x, acc with
            | Json.str s, some l => some (s :: l)
            | _, _ => none) (some [])
        | none => some []
        | _ => none
      let notes : Option (Option Str) :=
        match jlookup kvs ("additional_notes".data) with
        | some (Json.str s2) => some (some s2)
        | some Json.null => some none
        | none => some none
        | _ => none
      match interests, notes with
      | some il, some nt => some ⟨o, d, sd, ed, b, il, nt⟩
      | _, _ => none
    | _, _, _, _, _ => none
  | _ => none

theorem checkRequired_none_iff (data : List (Str × Json)) : ∀ fs : List Str,
    checkRequired data fs = none ↔
      (fs.all fun f =>
        match jlookup data f with
        | some v => pyTruthy v
        | none => false) = true := by
  intro fs
  induction fs with
  | nil => simp [checkRequired]
  | cons f rest ih =>
    rw [List.all_cons, Bool.and_eq_true]
    cases hf : jlookup data f with
    | none => simp [checkRequired, hf]
    | some v =>
      by_cases hv : pyTruthy v = true
      · simp [checkRequired, hf, hv, ih]
      · simp [checkRequired, hf, hv]

def c9BadKvs : List (Str × Json) :=
  [("origin".data, Json.str "a".data),
   ("destination".data, Json.str "b".data),
   ("start_date".data, Json.str "2025-01-05".data),
   ("end_date".data, Json.str "2025-01-01".data),
   ("budget".data, Json.num (-5))]

def c9BadJson : Json := Json.obj c9BadKvs

def c9BadInput : TravelInput :=
  ⟨"a".data, "b".data, "2025-01-05".data, "2025-01-01".data, -5, [], none⟩

/-- C9 (amended): the date-order and positive-budget requirements are
implemented only in `validate_travel_input`, which accepts exactly the
well-formed inputs; the plan route itself validates field types alone, so a
type-correct body with reversed dates and a non-positive budget is accepted
at the public interface. -/
theorem c9_validation_amended :
    (∀ data : List (Str × Json),
        validate_travel_input data = Except.ok true ↔
          wellFormedTravelInput data = true) ∧
    (∃ j : Json, ∃ ti : TravelInput, parseTravelInput j = some ti ∧
        parseDate ti.start_date = some (2025, 1, 5) ∧
        parseDate ti.end_date = some (2025, 1, 1) ∧
        ¬ gdays (2025, 1, 5) < gdays (2025, 1, 1) ∧ ti.budget ≤ 0) := by
  constructor
  · intro data
    cases hreq : checkRequired data requiredFields with
    | some f =>
      have hall : ¬ ((requiredFields.all fun f =>
          match jlookup data f with
          | some v => pyTruthy v
          | none => false) = true) := by
        intro h
        rw [← checkRequired_none_iff] at h
        rw [hreq] at h
        cases h
      simp [validate_travel_input, wellFormedTravelInput, hreq, hall]
    | none =>
      have hall := (checkRequired_none_iff data requiredFields).mp hreq
      cases hsd : jlookup data ("start_date".data) with
      | none =>
        simp [requiredFields, hsd] at hall
      | some vsd =>
        cases hed : jlookup data ("end_date".data) with
        | none =>
          simp [requiredFields, hed] at hall
        | some ved =>
          cases vsd with
          | str sd =>
            cases ved with
            | str ed =>
              cases hpd : parseDate sd with
              | none =>
                simp [validate_travel_input, wellFormedTravelInput, hreq,
                  hsd, hed, hpd, hall]
              | some ds =>
                cases hpe : parseDate ed with
                | none =>
                  simp [validate_travel_input, wellFormedTravelInput, hreq,
                    hsd, hed, hpd, hpe, hall]
                | some de =>
                  by_cases hord : gdays de ≤ gdays ds
                  · have hlt : ¬ gdays ds < gdays de := by omega
                    simp [validate_travel_input, wellFormedTravelInput, hreq,
                      hsd, hed, hpd, hpe, hord, hlt, hall]
                  · have hlt : gdays ds < gdays de := by omega
                    cases hb : jlookup data ("budget".data) with
                    | none =>
                      simp [validate_travel_input, wellFormedTravelInput,
                        hreq, hsd, hed, hpd, hpe, hord, hlt, hb, hall]
                    | some vb =>
                      cases vb with
                      | num n =>
                        by_cases hn : n ≤ 0
                        · have hn2 : ¬ (0 : Int) < n := by omega
                          simp [validate_travel_input, wellFormedTravelInput,
                            hreq, hsd, hed, hpd, hpe, hord, hlt, hb, hn, hn2,
                            hall]
                        · have hn2 : (0 : Int) < n := by omega
                          simp [validate_travel_input, wellFormedTravelInput,
                            hreq, hsd, hed, hpd, hpe, hord, hlt, hb, hn, hn2,
                            hall]
                      | bool b =>
                        cases b <;>
                          simp [validate_travel_input, wellFormedTravelInput,
                            hreq, hsd, hed, hpd, hpe, hord, hlt, hb, hall]
                      | null =>
                        simp [validate_travel_input, wellFormedTravelInput,
                          hreq, hsd, hed, hpd, hpe, hord, hlt, hb, hall]
                      | str s =>
                        simp [validate_travel_input, wellFormedTravelInput,
                          hreq, hsd, hed, hpd, hpe, hord, hlt, hb, hall]
                      | arr xs =>
                        simp [validate_travel_input, wellFormedTravelInput,
                          hreq, hsd, hed, hpd, hpe, hord, hlt, hb, hall]
                      | obj kvs =>
                        simp [validate_travel_input, wellFormedTravelInput,
                          hreq, hsd, hed, hpd, hpe, hord, hlt, hb, hall]
            | null =>
              simp [validate_travel_input, wellFormedTravelInput, hreq, hsd,
                hed, hall]
            | bool b =>
              simp [validate_travel_input, wellFormedTravelInput, hreq, hsd,
                hed, hall]
            | num n =>
              simp [validate_travel_input, wellFormedTravelInput, hreq, hsd,
                hed, hall]
            | arr xs =>
              simp [validate_travel_input, wellFormedTravelInput, hreq, hsd,
                hed, hall]
            | obj kvs =>
              simp [validate_travel_input, wellFormedTravelInput, hreq, hsd,
                hed, hall]
          | null =>
            simp [validate_travel_input, wellFormedTravelInput, hreq, hsd,
              hed, hall]
          | bool b =>
            simp [validate_travel_input, wellFormedTravelInput, hreq, hsd,
              hed, hall]
          | num n =>
            simp [validate_travel_input, wellFormedTravelInput, hreq, hsd,
              hed, hall]
          | arr xs =>
            simp [validate_travel_input, wellFormedTravelInput, hreq, hsd,
              hed, hall]
          | obj kvs =>
            simp [validate_travel_input, wellFormedTravelInput, hreq, hsd,
              hed, hall]
  · exact ⟨c9BadJson, c9BadInput, by decide, by decide, by decide,
      by decide, by decide⟩

/-- C9 counterexample: a request body that the route-level type validation
accepts although its start date is after its end date and its budget is
negative; `validate_travel_input` would reject it, but the route never calls
it. -/
theorem c9_counterexample :
    parseTravelInput c9BadJson = some c9BadInput ∧
    validate_travel_input c9BadKvs =
      Except.error (PyVErr.validationError VMsg.dateOrder) ∧
    parseDate c9BadInput.start_date = some (2025, 1, 5) ∧
    parseDate c9BadInput.end_date = some (2025, 1, 1) ∧
    gdays (2025, 1, 1) < gdays (2025, 1, 5) ∧
    c9BadInput.budget ≤ 0 := by decide

/-- One top-level statement of a Python module: the name it binds and the
names its right-hand side evaluates when the statement executes. -/
structure Stmt where
  name : Str
  refs : List Str
deriving DecidableEq

/-- Sequential execution of a module body from an environment of bound
names: each statement first evaluates its references (raising `NameError`
on the first unbound one, which aborts the import), then binds its name. -/
def runModule : List Stmt → List Str → Except Str (List Str)
  | [], env => .ok env
  | s :: rest, env =>
    match s.refs.find? (fun r => !env.contains r) with
    | some r => .error r
    | none => runModule rest (s.name :: env)

/-- The top level of `services/plan_generator.py`: the imports (lines 5 to
11), the `PlanGeneratorService` class definition (line 14, whose method
annotations reference the imported model names at definition time), the
global-instance assignment `_plan_generator = PlanGenerator()` (line 103),
and the `get_plan_generator` function definition (line 106). -/
def plan_generator_module : List Stmt :=
  [⟨"uuid".data, []⟩,
   ⟨"datetime".data, []⟩,
   ⟨"Optional".data, []⟩,
   ⟨"TravelPlan".data, []⟩,
   ⟨"TravelInput".data, []⟩,
   ⟨"DaySchedule".data, []⟩,
   ⟨"get_gemini_service".data, []⟩,
   ⟨"parse_gemini_response".data, []⟩,
   ⟨"validate_plan_structure".data, []⟩,
   ⟨"GeminiAPIError".data, []⟩,
   ⟨"ValidationError".data, []⟩,
   ⟨"PlanGeneratorService".data,
     ["get_gemini_service".data, "TravelInput".data, "TravelPlan".data,
      "DaySchedule".data, "Optional".data]⟩,
   ⟨"_plan_generator".data, ["PlanGenerator".data]⟩,
   ⟨"get_plan_generator".data, ["PlanGeneratorService".data]⟩]

/-- C1: importing `services/plan_generator.py` raises
`NameError: PlanGenerator` at the global-instance assignment, because no
statement of the module ever binds the name `PlanGenerator` (the class is
named `PlanGeneratorService`); so the import fails before
`get_plan_generator` is even defined and no `PlanGeneratorService` instance
is ever returned. -/
theorem c1_plan_generator_import_fails :
    runModule plan_generator_module [] = Except.error ("PlanGenerator".data) ∧
    ∀ s ∈ plan_generator_module, s.name ≠ "PlanGenerator".data := by decide

/-- Timestamps, abstracted to a totally ordered value supplied by the
caller in place of each `datetime.now()` call. -/
abbrev DateTime := Int

/-- Pydantic model `TimelineItem` (`models/travel_plan.py`): required
`time` and `activity`, optional `location` and `notes`, and `cost` and
`duration` defaulting to 0. -/
structure TimelineItem where
  time : Str
  activity : Str
  location : Option Str
  cost : Int
  duration : Int
  notes : Option Str
deriving DecidableEq

/-- Pydantic model `DaySchedule`: required `day` and `date`, `timeline`
defaulting to the empty list, `daily_cost` and `daily_duration`
defaulting to 0. -/
structure DaySchedule where
  day : Int
  date : Str
  timeline : List TimelineItem
  daily_cost : Int
  daily_duration : Int
deriving DecidableEq

/-- Pydantic model `TravelPlan`: identifier, raw input dict, schedules,
totals and an optional creation timestamp. -/
structure TravelPlan where
  plan_id : Str
  input_data : Json
  schedules : List DaySchedule
  total_cost : Int
  total_duration : Int
  created_at : Option DateTime
deriving DecidableEq

/-- An optional string as pydantic `.dict()` serializes it: `None` becomes
JSON null. -/
def optJson : Option Str → Json
  | none => Json.null
  | some s => Json.str s

/-- Pydantic `TimelineItem.dict()`: every field is emitted, `None` as
null. -/
def itemToDict (i : TimelineItem) : Json :=
  Json.obj
    [("time".data, Json.str i.time),
     ("activity".data, Json.str i.activity),
     ("location".data, optJson i.location),
     ("cost".data, Json.num i.cost),
     ("duration".data, Json.num i.duration),
     ("notes".data, optJson i.notes)]

/-- Pydantic `DaySchedule.dict()`. -/
def dayToDict (d : DaySchedule) : Json :=
  Json.obj
    [("day".data, Json.num d.day),
     ("date".data, Json.str d.date),
     ("timeline".data, Json.arr (d.timeline.map itemToDict)),
     ("daily_cost".data, Json.num d.daily_cost),
     ("daily_duration".data, Json.num d.daily_duration)]

/-- Parse a required string field (lax coercions omitted). -/
def strField (kvs : List (Str × Json)) (k : Str) : Option Str :=
  match jlookup kvs k with
  | some (Json.str s) => some s
  | _ => none

/-- Parse an optional string field: absent or null gives `None`. -/
def optStrField (kvs : List (Str × Json)) (k : Str) : Option (Option Str) :=
  match jlookup kvs k with
  | some (Json.str s) => some (some s)
  | some Json.null => some none
  | none => some none
  | _ => none

/-- Parse an integer field with a default for an absent key. -/
def intField (kvs : List (Str × Json)) (k : Str) (dflt : Int) : Option Int :=
  match jlookup kvs k with
  | some (Json.num n) => some n
  | none => some dflt
  | _ => none

/-- Parse a required integer field. -/
def intFieldReq (kvs : List (Str × Json)) (k : Str) : Option Int :=
  match jlookup kvs k with
  | some (Json.num n) => some n
  | _ => none

/-- Pydantic validation of a dict against `TimelineItem`. -/
def itemFromDict : Json → Option TimelineItem
  | Json.obj kvs => do
    let t ← strField kvs ("time".data)
    let a ← strField kvs ("activity".data)
    let l ← optStrField kvs ("location".data)
    let c ← intField kvs ("cost".data) 0
    let d ← intField kvs ("duration".data) 0
    let n ← optStrField kvs ("notes".data)
    some ⟨t, a, l, c, d, n⟩
  | _ => none

/-- Elementwise pydantic validation of a JSON list of timeline items. -/
def itemsFromDict : List Json → Option (List TimelineItem)
  | [] => some []
  | j :: rest =>
    match itemFromDict j, itemsFromDict rest with
    | some i, some is => some (i :: is)
    | _, _ => none

/-- Pydantic validation of a dict against `DaySchedule`. -/
def dayFromDict : Json → Option DaySchedule
  | Json.obj kvs => do
    let dy ← intFieldReq kvs ("day".data)
    let dt ← strField kvs ("date".data)
    let tl ←
      match jlookup kvs ("timeline".data) with
      | some (Json.arr xs) => itemsFromDict xs
      | none => some []
      | _ => none
    let dc ← intField kvs ("daily_cost".data) 0
    let dd ← intField kvs ("daily_duration".data) 0
    some ⟨dy, dt, tl, dc, dd⟩
  | _ => none

/-- Elementwise pydantic validation of a JSON list of day schedules. -/
def daysFromDict : List Json → Option (List DaySchedule)
  | [] => some []
  | j :: rest =>
    match dayFromDict j, daysFromDict rest with
    | some d, some ds => some (d :: ds)
    | _, _ => none

theorem itemFromDict_itemToDict (i : TimelineItem) :
    itemFromDict (itemToDict i) = some i := by
  obtain ⟨t, a, l, c, d, n⟩ := i
  cases l <;> cases n <;> rfl

theorem itemsFromDict_map (l : List TimelineItem) :
    itemsFromDict (l.map itemToDict) = some l := by
  induction l with
  | nil => rfl
  | cons i rest ih => simp [itemsFromDict, itemFromDict_itemToDict, ih]

theorem dayFromDict_dayToDict (d : DaySchedule) :
    dayFromDict (dayToDict d) = some d := by
  obtain ⟨dy, dt, tl, dc, dd⟩ := d
  simp +decide [dayToDict, dayFromDict, jlookup, intFieldReq, strField,
    intField, itemsFromDict_map]

theorem daysFromDict_map (l : List DaySchedule) :
    daysFromDict (l.map dayToDict) = some l := by
  induction l with
  | nil => rfl
  | cons d rest ih => simp [daysFromDict, dayFromDict_dayToDict, ih]

/-- A row of the `travel_plans` table (`models/db_models.py`); the
surrogate UUID primary key is irrelevant to the claims and omitted.
`plan_id` carries a unique constraint. -/
structure PlanRow where
  plan_id : Str
  input_data : Json
  schedules : Json
  total_cost : Int
  total_duration : Int
  created_at : DateTime
  updated_at : DateTime
deriving DecidableEq

/-- A row of the `timeline_item_history` table; there is no foreign key to
`travel_plans`, so history rows can exist without a matching plan row. -/
structure HistRow where
  plan_id : Str
  day : Int
  item_index : Int
  operation_type : Str
  original_data : Option Json
  updated_data : Option Json
  field_changed : Option Str
  created_at : DateTime
deriving DecidableEq

/-- The persistent store: both tables. -/
structure DB where
  plans : List PlanRow
  history : List HistRow
deriving DecidableEq

/-- Storage-layer exceptions (`utils/exceptions.py`). -/
inductive StorageErr where
  | planNotFound (pid : Str)
  | databaseErr
deriving DecidableEq

/-- Model of `PlanStorageService.save_plan` (lines 17 to 50): build a row
with `created_at = plan.created_at or now()` and `updated_at` defaulting to
now, insert and commit; a duplicate `plan_id` violates the unique
constraint at commit, which is caught, rolled back and re-raised as
`DatabaseError`. -/
def save_plan (plan : TravelPlan) (now : DateTime) (db : DB) :
    Except StorageErr Str × DB :=
  if db.plans.any (fun r => r.plan_id == plan.plan_id) then
    (.error .databaseErr, db)
  else
    (.ok plan.plan_id,
     ⟨db.plans ++
        [⟨plan.plan_id, plan.input_data,
          Json.arr (plan.schedules.map dayToDict), plan.total_cost,
          plan.total_duration, plan.created_at.getD now, now⟩],
      db.history⟩)

/-- Model of `PlanStorageService.get_plan` (lines 52 to 88): find the first
row with the identifier, raise `PlanNotFoundError` if none, otherwise
rebuild a pydantic `TravelPlan` from the row (re-validating the stored
schedules JSON; a validation failure is re-raised as `DatabaseError`). -/
def get_plan (pid : Str) (db : DB) : Except StorageErr TravelPlan :=
  match db.plans.find? (fun r => r.plan_id == pid) with
  | none => .error (.planNotFound pid)
  | some row =>
    match row.schedules with
    | Json.arr ds =>
      match daysFromDict ds with
      | some scheds =>
        .ok ⟨row.plan_id, row.input_data, scheds, row.total_cost,
          row.total_duration, some row.created_at⟩
      | none => .error .databaseErr
    | _ => .error .databaseErr

/-- Replace the first element satisfying the predicate. -/
def updateFirst (p : α → Bool) (f : α → α) : List α → List α
  | [] => []
  | x :: xs => if p x then f x :: xs else x :: updateFirst p f xs

/-- Model of `PlanStorageService.update_plan` (lines 118 to 159): find the
first row with the identifier, raise `PlanNotFoundError` if none, otherwise
overwrite its `schedules`, `total_cost`, `total_duration` and `updated_at`
and commit. -/
def update_plan (pid : Str) (updated : TravelPlan) (now : DateTime)
    (db : DB) : Except StorageErr Bool × DB :=
  match db.plans.find? (fun r => r.plan_id == pid) with
  | none => (.error (.planNotFound pid), db)
  | some _ =>
    (.ok true,
     ⟨updateFirst (fun r => r.plan_id == pid)
        (fun r =>
          { r with
            schedules := Json.arr (updated.schedules.map dayToDict),
            total_cost := updated.total_cost,
            total_duration := updated.total_duration,
            updated_at := now })
        db.plans,
      db.history⟩)

/-- Model of `PlanStorageService.delete_plan` (lines 162 to 198): delete
the history rows for the identifier, then the plan rows, commit, and only
then check the plan-row delete count; zero raises `PlanNotFoundError`, but
the commit has already happened, so both deletions persist either way. -/
def delete_plan (pid : Str) (db : DB) : Except StorageErr Bool × DB :=
  let hist := db.history.filter fun h => !(h.plan_id == pid)
  let plans := db.plans.filter fun r => !(r.plan_id == pid)
  let result := (db.plans.filter fun r => r.plan_id == pid).length
  ((if result = 0 then .error (.planNotFound pid) else .ok true),
   ⟨plans, hist⟩)

/-- Model of `HistoryService.clear_history` (lines 142 to 163): delete all
history rows for the identifier, commit, and return the deleted count. -/
def clear_history (pid : Str) (db : DB) : Except StorageErr Nat × DB :=
  ((.ok (db.history.filter fun h => h.plan_id == pid).length),
   ⟨db.plans, db.history.filter fun h => !(h.plan_id == pid)⟩)

/-- Model of `HistoryService.get_history_count` (lines 122 to 139). -/
def get_history_count (pid : Str) (db : DB) : Except StorageErr Nat :=
  .ok (db.history.filter fun h => h.plan_id == pid).length

theorem find?_append_none {α} (p : α → Bool) (l1 l2 : List α)
    (h : l1.all (fun x => !p x) = true) :
    (l1 ++ l2).find? p = l2.find? p := by
  induction l1 with
  | nil => rfl
  | cons x xs ih =>
    rw [List.all_cons, Bool.and_eq_true] at h
    have hx : p x = false := by
      cases hpx : p x
      · rfl
      · rw [hpx] at h; cases h.1
    simp [List.find?, hx, ih h.2]

theorem updateFirst_append_none {α} (p : α → Bool) (f : α → α)
    (l1 l2 : List α) (h : l1.all (fun x => !p x) = true) :
    updateFirst p f (l1 ++ l2) = l1 ++ updateFirst p f l2 := by
  induction l1 with
  | nil => rfl
  | cons x xs ih =>
    rw [List.all_cons, Bool.and_eq_true] at h
    have hx : p x = false := by
      cases hpx : p x
      · rfl
      · rw [hpx] at h; cases h.1
    simp [updateFirst, hx, ih h.2]

theorem filter_length_zero_iff {α} (p : α → Bool) (l : List α) :
    ((l.filter p).length = 0) ↔ l.any p = false := by
  induction l with
  | nil => simp
  | cons x xs ih =>
    cases hp : p x <;> simp [List.filter_cons, hp, ih]

theorem filter_not_length_add {α} (p : α → Bool) (l : List α) :
    (l.filter fun x => !p x).length + (l.filter p).length = l.length := by
  induction l with
  | nil => rfl
  | cons x xs ih =>
    cases hp : p x <;> simp [List.filter_cons, hp] <;> omega

theorem filter_of_filter_not {α} (p : α → Bool) (l : List α) :
    (l.filter fun x => !p x).filter p = [] := by
  induction l with
  | nil => rfl
  | cons x xs ih =>
    cases hp : p x <;> simp [List.filter_cons, hp, ih]

/-- C3 (amended): saving a fresh plan and fetching it back returns the
plan with every field preserved except `created_at`, which comes back as
`some (plan.created_at or now)`: a plan saved with `created_at = None` is
returned with the save-time timestamp instead. -/
theorem c3_save_then_get_amended :
    ∀ (plan : TravelPlan) (now : DateTime) (db : DB),
      (db.plans.all fun r => !(r.plan_id == plan.plan_id)) = true →
      (save_plan plan now db).1 = Except.ok plan.plan_id ∧
      get_plan plan.plan_id (save_plan plan now db).2 =
        Except.ok { plan with created_at := some (plan.created_at.getD now) } := by
  intro plan now db h
  have hany : db.plans.any (fun r => r.plan_id == plan.plan_id) = false := by
    cases hc : db.plans.any (fun r => r.plan_id == plan.plan_id)
    · rfl
    · obtain ⟨x, hx, hpx⟩ := List.any_eq_true.mp hc
      have hb := List.all_eq_true.mp h x hx
      rw [hpx] at hb
      cases hb
  obtain ⟨pid, idata, scheds, tc, td, ca⟩ := plan
  constructor
  · simp [save_plan, hany]
  · simp [save_plan, hany, get_plan, find?_append_none _ _ _ h, List.find?,
      daysFromDict_map]

def c3NoneCreated : TravelPlan := ⟨"p1".data, Json.obj [], [], 0, 0, none⟩

/-- C3 counterexample: a plan saved with `created_at = None` is not
returned equal to itself; `get` yields it with the save-time timestamp. -/
theorem c3_counterexample :
    (save_plan c3NoneCreated 7 ⟨[], []⟩).1 = Except.ok c3NoneCreated.plan_id ∧
    get_plan c3NoneCreated.plan_id (save_plan c3NoneCreated 7 ⟨[], []⟩).2 =
      Except.ok { c3NoneCreated with created_at := some 7 } ∧
    get_plan c3NoneCreated.plan_id (save_plan c3NoneCreated 7 ⟨[], []⟩).2 ≠
      Except.ok c3NoneCreated := by decide

def c3WPlan : TravelPlan :=
  ⟨"w".data, Json.null,
   [⟨1, "2025-01-01".data, [⟨"09:00".data, "x".data, none, 0, 0, none⟩], 0, 0⟩],
   3, 4, some 5⟩

/-- Concrete save-then-get round trip on a plan with a set timestamp. -/
theorem c3_witness :
    (save_plan c3WPlan 9 ⟨[], []⟩).1 = Except.ok c3WPlan.plan_id ∧
    get_plan c3WPlan.plan_id (save_plan c3WPlan 9 ⟨[], []⟩).2 =
      Except.ok { c3WPlan with created_at := some (c3WPlan.created_at.getD 9) } :=
  c3_save_then_get_amended c3WPlan 9 ⟨[], []⟩ (by decide)

/-- C2 (amended): `delete_plan` always commits both deletions before
checking the result: the returned value is "not found" exactly when no plan
row matches, but the history rows for the identifier are removed from the
store in every case, and the plan rows matching the identifier are removed
in every case (vacuously on the error branch). -/
theorem c2_delete_plan_amended :
    ∀ (pid : Str) (db : DB),
      delete_plan pid db =
        ((if db.plans.any (fun r => r.plan_id == pid) then Except.ok true
          else Except.error (StorageErr.planNotFound pid)),
         ⟨db.plans.filter (fun r => !(r.plan_id == pid)),
          db.history.filter (fun h => !(h.plan_id == pid))⟩) := by
  intro pid db
  by_cases h : (db.plans.filter fun r => r.plan_id == pid).length = 0
  · have hany := (filter_length_zero_iff _ _).mp h
    simp [delete_plan, h, hany]
  · have hany : db.plans.any (fun r => r.plan_id == pid) = true := by
      cases hc : db.plans.any (fun r => r.plan_id == pid)
      · exact absurd ((filter_length_zero_iff _ _).mpr hc) h
      · rfl
    simp [delete_plan, h, hany]

def c2DB : DB := ⟨[], [⟨"p".data, 1, 0, "update".data, none, none, none, 0⟩]⟩

/-- C2 counterexample: deleting an unknown identifier from a store that
holds a history row for it reports "not found" yet still erases the history
row, so the store is changed on the error path. -/
theorem c2_counterexample :
    (delete_plan ("p".data) c2DB).1 =
      Except.error (StorageErr.planNotFound ("p".data)) ∧
    (delete_plan ("p".data) c2DB).2.history = [] ∧
    c2DB.history ≠ [] := by decide

/-- C7: on an unknown identifier `update_plan` fails with "not found" and
leaves the store untouched; on a stored plan (first matching row) it
replaces exactly the row's schedules, totals and `updated_at` with the
supplied values, leaving `plan_id`, `input_data`, `created_at`, every other
row and the history table unchanged. -/
theorem c7_update_plan :
    ∀ (pid : Str) (plan : TravelPlan) (now : DateTime) (db : DB),
      ((db.plans.all fun r => !(r.plan_id == pid)) = true →
        update_plan pid plan now db =
          (Except.error (StorageErr.planNotFound pid), db)) ∧
      (∀ (pre : List PlanRow) (row : PlanRow) (post : List PlanRow),
        db.plans = pre ++ row :: post →
        (pre.all fun r => !(r.plan_id == pid)) = true →
        (row.plan_id == pid) = true →
        update_plan pid plan now db =
          (Except.ok true,
           ⟨pre ++
              { row with
                schedules := Json.arr (plan.schedules.map dayToDict),
                total_cost := plan.total_cost,
                total_duration := plan.total_duration,
                updated_at := now } :: post,
            db.history⟩)) := by
  intro pid plan now db
  constructor
  · intro h
    have hfind : db.plans.find? (fun r => r.plan_id == pid) = none := by
      rw [List.find?_eq_none]
      intro x hx
      have hb := List.all_eq_true.mp h x hx
      simp only [Bool.not_eq_true'] at hb
      simp [hb]
    simp [update_plan, hfind]
  · intro pre row post hdb hpre hrow
    have hfind : db.plans.find? (fun r => r.plan_id == pid) = some row := by
      rw [hdb, find?_append_none _ _ _ hpre]
      simp [List.find?, hrow]
    simp only [update_plan, hfind]
    rw [hdb, updateFirst_append_none _ _ _ _ hpre]
    simp [updateFirst, hrow]

def c7Row : PlanRow := ⟨"p".data, Json.null, Json.arr [], 0, 0, 1, 1⟩

def c7Plan : TravelPlan := ⟨"p".data, Json.null, [], 5, 6, none⟩

/-- Concrete update of the only stored row. -/
theorem c7_witness :
    update_plan ("p".data) c7Plan 9 ⟨[c7Row], []⟩ =
      (Except.ok true,
       ⟨[] ++
          { c7Row with
            schedules := Json.arr (c7Plan.schedules.map dayToDict),
            total_cost := c7Plan.total_cost,
            total_duration := c7Plan.total_duration,
            updated_at := 9 } :: [],
        ([] : List HistRow)⟩) :=
  (c7_update_plan ("p".data) c7Plan 9 ⟨[c7Row], []⟩).2 [] c7Row []
    rfl (by decide) (by decide)

/-- C10: `clear_history` returns exactly the number of history rows whose
identifier matches, removes exactly those rows while leaving the plans
table unchanged, and an immediate `get_history_count` for that identifier
returns zero. -/
theorem c10_clear_history_count :
    ∀ (pid : Str) (db : DB),
      (clear_history pid db).1 =
        Except.ok (db.history.filter fun h => h.plan_id == pid).length ∧
      (clear_history pid db).2.plans = db.plans ∧
      ((clear_history pid db).2.history.length +
        (db.history.filter fun h => h.plan_id == pid).length =
          db.history.length) ∧
      get_history_count pid (clear_history pid db).2 = Except.ok 0 := by
  intro pid db
  refine ⟨rfl, rfl, ?_, ?_⟩
  · exact filter_not_length_add _ _
  · simp [get_history_count, clear_history, filter_of_filter_not]
